import Mathlib

/-!
Verification development for the rewledis repository: a rewriting shim that
lets Redis clients talk to a LedisDB backend.  The definitions below are a
shallow embedding of the Go sources (`dbtypes.go`, `transformers.go`,
`ledisconn.go`, `args/args.go`, the command catalog and the resolver/cache
files).  Go interfaces and closures become Lean functions, mutable state is
threaded explicitly, machine integers become `Int` with explicit wrapping
where overflow matters, and Go panics / fallible calls become `Except`.

General modelling conventions:
  * Go struct field names are kept up to capitalization; the field `Type`
    is renamed `type_` style-free to `typ` because `Type` is reserved.
  * Byte slices (`[]byte`) are modelled as `String` (all data relevant to
    the claims is ASCII text).
  * Floating point and complex argument values are outside the model; the
    corresponding `argType` constructors are kept so that the enumeration
    mirrors the source, but no `Arg` constructor produces them.
  * Wall-clock fields (`WrittenAt`) and real-time timeouts carry no
    information relevant to any claim and are omitted.
-/

/-- `LedisType` from `dbtypes.go` (the backend type of a key).
Constructor names mirror `LedisTypeNone` … `LedisTypeZSet`. -/
inductive LedisType where
  | none
  | kv
  | list
  | hash
  | set
  | zset
deriving DecidableEq

/-- `RedisType` from `dbtypes.go`.  `generic` is the out-of-band value
`RedisTypeGeneric = -2`. -/
inductive RedisType where
  | none
  | string
  | list
  | hash
  | set
  | zset
  | generic
deriving DecidableEq

/-- The closed set of error values of the package (`errors.New` variables),
plus `panicked` for Go runtime panics (index out of range), `connErr` for
failures of the underlying connection / pool, and `ctxCancelled` for context
cancellation.  `invalidSyn` models `ErrInvalidSyntax` (renamed to satisfy
identifier restrictions of this development). -/
inductive RErr where
  | unknownRedisCommandName
  | subCommandNotImplemented
  | subCommandUnknown
  | invalidArgumentCombination
  | invalidSyn
  | invalidArgumentType
  | noEmulationPossible
  | invalidAggregationValue
  | invalidTypeForOperation
  | invalidLedisType
  | unexpectedCacheEntryState
  | errorCacheEntryState
  | connClosed
  | timeoutNotSupported
  | redisNilErr
  | conversionErr
  | connErr
  | ctxCancelled
  | panicked
deriving DecidableEq

/-- A command argument (`interface{}` value passed to `Send`).  The
constructors cover the argument kinds handled by `args.Parse`: strings,
byte slices, the signed/unsigned integer family (all collapsing to `int64`
in `parseRecursive`), booleans, `nil`, and one level of `redis.Argument`
wrapping (`wrap`).  Floats and complex numbers are outside the model. -/
inductive Arg where
  | str (s : String)
  | bytes (b : String)
  | int (n : Int)
  | bool (b : Bool)
  | nil
  | wrap (a : Arg)
  | list (as : List Arg)

/-- `args.Type` from `args/args.go`. -/
inductive ArgType where
  | unset
  | string
  | bytes
  | int
  | uint
  | float
  | bool
  | complex
  | nil
deriving DecidableEq

/-- `args.Info` from `args/args.go`.  The unwrapped argument's payload is
stored directly (`stringValue` / `bytesValue` for the accessor methods,
`intValue` as in the source). -/
structure ArgInfo where
  typ : ArgType := .unset
  stringValue : String := ""
  bytesValue : String := ""
  intValue : Int := 0
  wrappingLevel : Nat := 0
deriving DecidableEq

namespace rewledisArgs

/-- `args.parseRecursive`: classify the (already unwrapped) argument.
`redis.Argument` wrapping increments `WrappingLevel` and recurses. -/
def parseRecursive : Arg → ArgInfo → ArgInfo
  | .str s, info => { info with typ := .string, stringValue := s }
  | .bytes b, info => { info with typ := .bytes, bytesValue := b }
  | .int n, info => { info with typ := .int, intValue := n }
  | .bool b, info => { info with typ := .bool, intValue := if b then 1 else 0 }
  | .nil, info => { info with typ := .nil }
  | .wrap a, info => parseRecursive a { info with wrappingLevel := info.wrappingLevel + 1 }
  | .list _, info => info

/-- `args.Parse`. -/
def Parse (a : Arg) : ArgInfo := parseRecursive a {}

/-- `args.AsSimpleString`: only string/bytes arguments (directly or behind
exactly one wrapping level) are converted; everything else becomes `""`. -/
def AsSimpleString : Arg → String
  | .str s => s
  | .bytes b => b
  | .wrap (.str s) => s
  | .wrap (.bytes b) => b
  | .wrap _ => ""
  | _ => ""

/-- `args.AppendAsSimpleStrings`. -/
def AppendAsSimpleStrings (stringArgs : List String) (args : List Arg) : List String :=
  stringArgs ++ args.map AsSimpleString

/-- ASCII case folding for a character (the flag and command-name
comparisons of the package only involve ASCII data, so Unicode simple
folding restricts to this). -/
def foldChar (c : Char) : Char :=
  if 'A' ≤ c ∧ c ≤ 'Z' then Char.ofNat (c.toNat + 32) else c

/-- `strings.EqualFold` / `bytes.EqualFold` restricted to ASCII. -/
def eqFold (a b : String) : Bool :=
  a.data.map foldChar == b.data.map foldChar

/-- `strings.ToUpper` restricted to ASCII. -/
def toUpperAscii (s : String) : String :=
  ⟨s.data.map (fun c => if 'a' ≤ c ∧ c ≤ 'z' then Char.ofNat (c.toNat - 32) else c)⟩

end rewledisArgs

/-- `Info.IsStringLike`. -/
def ArgInfo.IsStringLike (i : ArgInfo) : Bool :=
  i.typ == .string || i.typ == .bytes

/-- `Info.EqualFoldEither`: compare against `tString` or `tBytes` depending
on the stored representation.  In the source the two comparands always hold
the same characters (e.g. `stringEX` / `bytesEX`). -/
def ArgInfo.EqualFoldEither (i : ArgInfo) (tString : String) (tBytes : String) : Bool :=
  match i.typ with
  | .string => rewledisArgs.eqFold i.stringValue tString
  | .bytes => rewledisArgs.eqFold i.bytesValue tBytes
  | _ => false

/-- `strconv.ParseInt(s, 10, 64)`: base-10 parse with int64 range check.
Parsing of the digit/sign forms is delegated to `String.toInt?`. -/
def rewledisArgs.parseInt64 (s : String) : Except RErr Int :=
  match s.toInt? with
  | Option.some n =>
      if -(2 ^ 63) ≤ n ∧ n < 2 ^ 63 then .ok n else .error .conversionErr
  | Option.none => .error .conversionErr

/-- `Info.ConvertToInt`. -/
def ArgInfo.ConvertToInt (i : ArgInfo) : Except RErr Int :=
  match i.typ with
  | .string => rewledisArgs.parseInt64 i.stringValue
  | .bytes => rewledisArgs.parseInt64 i.bytesValue
  | .int => .ok i.intValue
  | .uint => .ok i.intValue
  | .bool => .ok (if i.intValue ≠ 0 then 1 else 0)
  | _ => .error .invalidTypeForOperation

/-- `Info.ConvertToRedisString` (formatting of integers is base-10; the
float and complex cases are outside the model). -/
def ArgInfo.ConvertToRedisString (i : ArgInfo) : Except RErr String :=
  match i.typ with
  | .string => .ok i.stringValue
  | .bytes => .ok i.bytesValue
  | .int => .ok (toString i.intValue)
  | .uint => .ok (toString i.intValue)
  | .bool => .ok (if i.intValue ≠ 0 then "1" else "0")
  | .nil => .ok ""
  | _ => .error .invalidTypeForOperation

/-- A backend command as written into the wire connection's output buffer by
`redis.Conn.Send(name, args...)`. -/
structure Command where
  name : String
  args : List Arg

/-- A raw reply value from the backend.  `connHandle` is an opaque marker for
the `UNSAFE SELF` reply, which in Go is the connection value itself. -/
inductive Reply where
  | int (n : Int)
  | str (s : String)
  | nil
  | connHandle
deriving DecidableEq

/-- The underlying `redis.Conn` of a `LedisConn`: an output buffer of sent
commands and the stream of raw replies the server will deliver, in order.
`Receive` on an exhausted stream models a read error.  Buffered `Send` and
`Flush` never fail in this model (their Go error paths are connection-level
failures with no influence on any claim). -/
structure WireConn where
  sent : List Command
  replies : List Reply
  supportsTimeout : Bool

/-- `redis.Conn.Send`: append a command to the output buffer. -/
def WireConn.send (w : WireConn) (name : String) (args : List Arg) : WireConn :=
  { w with sent := w.sent ++ [⟨name, args⟩] }

/-- `redis.Conn.Receive`: take the next raw reply off the stream. -/
def WireConn.receive (w : WireConn) : Except RErr (Reply × WireConn) :=
  match w.replies with
  | [] => .error .connErr
  | r :: rs => .ok (r, { w with replies := rs })

/-- Receive `n` raw replies in order (the loop bodies of
`receiveRepliesAppend` / `consumeSlots`). -/
def WireConn.receiveN (w : WireConn) : Nat → Except RErr (List Reply × WireConn)
  | 0 => .ok ([], w)
  | n + 1 =>
      match w.receive with
      | .error e => .error e
      | .ok (r, w') =>
          match w'.receiveN n with
          | .error e => .error e
          | .ok (rs, w'') => .ok (r :: rs, w'')

/-- `redis.Int64(reply, nil)`: integer replies pass through, bulk strings are
parsed, `nil` yields `redis.ErrNil`. -/
def redisInt64 (r : Reply) : Except RErr Int :=
  match r with
  | .int n => .ok n
  | .str s => rewledisArgs.parseInt64 s
  | .nil => .error .redisNilErr
  | .connHandle => .error .conversionErr

/-- `strconv.ParseBool` (used by `redis.Bool` on bulk-string replies). -/
def parseBoolGo (s : String) : Except RErr Bool :=
  if s = "1" ∨ s = "t" ∨ s = "T" ∨ s = "TRUE" ∨ s = "true" ∨ s = "True" then .ok true
  else if s = "0" ∨ s = "f" ∨ s = "F" ∨ s = "FALSE" ∨ s = "false" ∨ s = "False" then .ok false
  else .error .conversionErr

/-- `redis.Bool(reply, nil)`. -/
def redisBool (r : Reply) : Except RErr Bool :=
  match r with
  | .int n => .ok (n ≠ 0)
  | .str s => parseBoolGo s
  | .nil => .error .redisNilErr
  | .connHandle => .error .conversionErr

/-- `Slot` from `dbtypes.go`: how many raw replies the queued command owes and
how to reduce them to one reply.  `RepliesCount` is non-negative in every
instantiation, hence `Nat`. -/
structure Slot where
  RepliesCount : Nat
  ProcessFunc : List Reply → Except RErr Reply

/-- `SendLedisFunc` from `dbtypes.go`. -/
def SendLedisFunc : Type :=
  WireConn → Except RErr (WireConn × Slot)

/-- The argument extractors of `dbtypes.go`, defunctionalized:
`atIndices` is `ArgsAtIndices(indices...)`, `fromUntilIndex` is
`ArgsFromUntilIndex(from, until, skip)`; `ArgsFromIndex(i, skip)` is
`fromUntilIndex i 0 skip`. -/
inductive ArgsExtractor where
  | atIndices (indices : List Nat)
  | fromUntilIndex (frm : Int) (untl : Int) (skip : Nat)
deriving DecidableEq

/-- `ArgsFromIndex`. -/
def ArgsFromIndex (index : Int) (skip : Nat := 0) : ArgsExtractor :=
  .fromUntilIndex index 0 skip

/-- `ArgsAtIndices`. -/
def ArgsAtIndices (indices : List Nat) : ArgsExtractor :=
  .atIndices indices

/-- `ArgsExtractor.AppendArgs` (on a fresh accumulator).  Go panics on an
out-of-range index; the panic is modelled as `RErr.panicked`.  For
`fromUntilIndex` the Go code allocates `(untilIndex-from+skip)/(1+skip)`
slots (a negative count panics in `make`) and then collects
`args[from], args[from+1+skip], …` while the index is below `untilIndex`. -/
def ArgsExtractor.AppendArgs : ArgsExtractor → List Arg → Except RErr (List Arg)
  | .atIndices idxs, args =>
      idxs.mapM fun i =>
        match args[i]? with
        | Option.some a => .ok a
        | Option.none => .error .panicked
  | .fromUntilIndex frm untl skip, args =>
      let len : Int := args.length
      let untilIndex : Int :=
        if untl ≤ 0 then len + untl
        else if untl ≥ len then len - 1
        else untl
      let cnt : Int := (untilIndex - frm + skip).tdiv (1 + skip)
      if cnt < 0 then .error .panicked
      else
        (List.range cnt.toNat).mapM fun k =>
          match args[(frm + k * (1 + skip)).toNat]? with
          | Option.some a => .ok a
          | Option.none => .error .panicked

/-- `TypeSpecificCommands` from `dbtypes.go` (`""` disables a type).  Field
names are the source's `None`/`KV`/`List`/`Hash`/`Set`/`ZSet` in lowercase
(the capitalized forms would shadow the `List`/`Set` types). -/
structure TypeSpecificCommands where
  none : String := ""
  kv : String := ""
  list : String := ""
  hash : String := ""
  set : String := ""
  zset : String := ""
deriving DecidableEq

/-- `Aggregation` from `dbtypes.go`. -/
inductive Aggregation where
  | sum
  | countOne
  | first
deriving DecidableEq

/-- `TypeSpecificBulkTransformerConfig` from `dbtypes.go`. -/
structure TypeSpecificBulkTransformerConfig where
  Commands : TypeSpecificCommands
  Debulk : Bool := false
  Aggregation : Aggregation
  AppendArgsExtractor : Option ArgsExtractor := Option.none
deriving DecidableEq

/-- `KeyTypeAggregation` from `dbtypes.go`: the partition of a key batch by
backend type (field names lowercased as for `TypeSpecificCommands`). -/
structure KeyTypeAggregation where
  none : List String := []
  kv : List String := []
  list : List String := []
  hash : List String := []
  set : List String := []
  zset : List String := []
deriving DecidableEq

/-- `TypeInfo` from the resolver file. -/
structure TypeInfo where
  key : String
  typ : LedisType
deriving DecidableEq

/-- `KeyTypeAggregation.AppendKeys`. -/
def KeyTypeAggregation.AppendKeys (k : KeyTypeAggregation) (typesInfo : List TypeInfo) :
    KeyTypeAggregation :=
  typesInfo.foldl
    (fun k ti =>
      match ti.typ with
      | .none => { k with none := k.none ++ [ti.key] }
      | .kv => { k with kv := k.kv ++ [ti.key] }
      | .list => { k with list := k.list ++ [ti.key] }
      | .hash => { k with hash := k.hash ++ [ti.key] }
      | .set => { k with set := k.set ++ [ti.key] }
      | .zset => { k with zset := k.zset ++ [ti.key] })
    k

/-- `CacheEntryState` from the cache file.  `found` renames the source's
`CacheEntryStateExists` (`exists` is reserved in Lean). -/
inductive CacheEntryState where
  | none
  | loading
  | found
  | deleted
  | error
deriving DecidableEq

/-- `cacheEntry` (the mutable record stored in the cache).  The per-entry
`RWMutex` and the `WrittenAt` timestamp carry no claim-relevant information
and are omitted; the one-shot `DoneLoading` channel is modelled by an
identifier allocated from `CacheState.nextChan`. -/
structure CacheEntry where
  state : CacheEntryState := .none
  typ : LedisType := .none
  DoneLoading : Option Nat := Option.none
deriving DecidableEq

/-- `CacheEntryData`: the snapshot handed out by `LoadOrCreateEntry` (the
back-pointer used by `Refresh` is replaced by the wait oracle of the
resolver model). -/
structure CacheEntryData where
  Key : String := ""
  state : CacheEntryState := .none
  typ : LedisType := .none
  DoneLoading : Option Nat := Option.none
deriving DecidableEq

/-- `CacheEntrySetter`: the one-shot publication handle for a Loading
entry.  The entry pointer is replaced by the entry's key (cache keys are
unique). -/
structure CacheEntrySetter where
  Key : String := ""
  doneLoading : Option Nat := Option.none
deriving DecidableEq

/-- `Cache` (a `sync.Map` keyed by strings), plus the bookkeeping needed to
model the completion channels: `nextChan` allocates fresh channel
identifiers, `closed` records the identifiers whose channel has been
closed. -/
structure CacheState where
  entries : List (String × CacheEntry) := []
  nextChan : Nat := 0
  closed : List Nat := []
deriving DecidableEq

/-- `Cache.loadEntry` (`sync.Map.Load`). -/
def CacheState.loadEntry (c : CacheState) (key : String) : Option CacheEntry :=
  match c.entries.find? (fun kv => kv.1 == key) with
  | Option.some kv => Option.some kv.2
  | Option.none => Option.none

/-- Overwrite the entry stored under `key` (the effect of writing through
the per-entry pointer while holding its write lock). -/
def CacheState.updateEntry (c : CacheState) (key : String) (e : CacheEntry) : CacheState :=
  { c with entries := c.entries.map (fun kv => if kv.1 == key then (kv.1, e) else kv) }

/-- `CacheEntrySetter.Set`: publish the final state, detach and close the
completion channel.  The source panics when called twice or with an invalid
state parameter; neither happens on any modelled path (`deleted`/`error`
force the stored type to `none` exactly as the `switch` in the source
does). -/
def CacheEntrySetter.Set (s : CacheEntrySetter) (state' : CacheEntryState) (keyType : LedisType)
    (c : CacheState) : CacheState :=
  let keyType : LedisType :=
    match state' with
    | .found => keyType
    | _ => .none
  let c := c.updateEntry s.Key { state := state', typ := keyType, DoneLoading := Option.none }
  match s.doneLoading with
  | Option.some id => { c with closed := c.closed ++ [id] }
  | Option.none => c

/-- `Cache.prepareEntry`.  The read-lock / write-lock upgrade with its
re-check collapses in this sequential model: the state cannot change
between the two checks. -/
def CacheState.prepareEntry (c : CacheState) (key : String) (entry : CacheEntry) :
    CacheState × CacheEntryData × CacheEntrySetter × Bool :=
  if entry.state = .found ∨ entry.state = .loading then
    (c,
     { Key := key, state := entry.state, typ := entry.typ, DoneLoading := entry.DoneLoading },
     {}, true)
  else
    let doneLoading := c.nextChan
    let c := c.updateEntry key { state := .loading, typ := .none, DoneLoading := Option.some doneLoading }
    ({ c with nextChan := c.nextChan + 1 },
     {},
     { Key := key, doneLoading := Option.some doneLoading }, false)

/-- `Cache.LoadOrCreateEntry`.  In this sequential model the
`sync.Map.LoadOrStore` race branch cannot trigger: when `loadEntry` misses,
the store succeeds. -/
def CacheState.LoadOrCreateEntry (c : CacheState) (key : String) :
    CacheState × CacheEntryData × CacheEntrySetter × Bool :=
  match c.loadEntry key with
  | Option.some entry => c.prepareEntry key entry
  | Option.none =>
      let doneLoading := c.nextChan
      let entry : CacheEntry :=
        { state := .loading, typ := .none, DoneLoading := Option.some doneLoading }
      let c := { c with entries := c.entries ++ [(key, entry)], nextChan := c.nextChan + 1 }
      (c, {}, { Key := key, doneLoading := Option.some doneLoading }, false)

/-- `Cache.LoadType`. -/
def CacheState.LoadType (c : CacheState) (key : String) : LedisType × Bool :=
  match c.loadEntry key with
  | Option.none => (.none, false)
  | Option.some entry =>
      if entry.state = .found then (entry.typ, true) else (.none, false)

/-- Well-formedness of reachable cache states: keys are unique, no entry is
in the zero state `none`, and every channel identifier in use (stored or
closed) was allocated below `nextChan`. -/
def CacheState.WF (c : CacheState) : Prop :=
  (c.entries.map Prod.fst).Nodup ∧
  (∀ kv ∈ c.entries, kv.2.state ≠ CacheEntryState.none ∧
    ∀ id, kv.2.DoneLoading = Option.some id → id < c.nextChan) ∧
  (∀ id ∈ c.closed, id < c.nextChan)

/-- The outcome observed by a waiter blocked on a `Loading` entry's
completion channel (the `select` in `waitResolve`).  `CacheEntrySetter.Set`
publishes a terminal state (`Exists`/`Deleted`/`Error`) before closing the
channel, so the refreshed snapshot seen after the channel closes is
terminal; the defensive still-`Loading` retry branch of the source re-enters
the same `select` and is therefore not separately represented.  `cancelled`
is context cancellation. -/
inductive WaitOutcome where
  | found (t : LedisType)
  | deleted
  | errored
  | cancelled
deriving DecidableEq

/-- The backend seen through the resolver's sub-pool during active probing:
for each probed backend type, either the per-key result of the
existence-by-type probe (reply `1` ↦ `true`), or `none` when acquiring the
connection / pipelining / receiving fails for that round. -/
def ProbeOracle : Type :=
  LedisType → Option (String → Bool)

/-- `Resolver.existsCommandForType`. -/
def existsCommandForType : LedisType → Except RErr String
  | .kv => .ok "EXISTS"
  | .list => .ok "LKEYEXISTS"
  | .hash => .ok "HKEYEXISTS"
  | .set => .ok "SKEYEXISTS"
  | .zset => .ok "ZKEYEXISTS"
  | .none => .error .invalidLedisType

/-- `Resolver.checkType`: probe every not-yet-typed key for `t` and mark the
hits with `t`.  The parallel setter of each entry is carried along unchanged
(the Go function receives only the `typesInfo` slice; the pairing mirrors
the co-indexed slices of `activeResolve`). -/
def checkType (probe : ProbeOracle) (t : LedisType)
    (pairs : List (TypeInfo × CacheEntrySetter)) :
    Except RErr (List (TypeInfo × CacheEntrySetter)) :=
  match probe t with
  | Option.none => .error .connErr
  | Option.some hit =>
      match existsCommandForType t with
      | .error e => .error e
      | .ok _ =>
          .ok (pairs.map fun pr =>
            if hit pr.1.key then ({ pr.1 with typ := t }, pr.2) else pr)

/-- The in-place partition of `Resolver.sortApartCoSortEntrySetters`,
expressed on an explicit front/middle/back decomposition of the slice.  The
Go loop keeps two cursors `i` (everything before it satisfies `p`, i.e. has
a resolved type) and `noneBegin` (everything from it on has type `None`);
`middle` is the sub-slice between the cursors and `back` the suffix from
`noneBegin`.  A `p`-element at `i` moves to the front; otherwise the
element is swapped with the one just before `noneBegin` (the last element
of `middle`) and re-examined. -/
def sortApartAux (p : TypeInfo × CacheEntrySetter → Bool) :
    Nat → List (TypeInfo × CacheEntrySetter) → List (TypeInfo × CacheEntrySetter) →
    List (TypeInfo × CacheEntrySetter) × List (TypeInfo × CacheEntrySetter)
  | _, [], back => ([], back)
  | 0, x :: rest, back => ([], x :: rest ++ back)
  | fuel + 1, x :: rest, back =>
      if p x then
        (x :: (sortApartAux p fuel rest back).1, (sortApartAux p fuel rest back).2)
      else
        match rest with
        | [] => ([], x :: back)
        | y :: ys =>
            sortApartAux p fuel
              ((y :: ys).getLast (List.cons_ne_nil y ys) :: (y :: ys).dropLast) (x :: back)

/-- `Resolver.sortApartCoSortEntrySetters` applied to the whole working
slice: returns the resolved prefix (`typesInfo[:noneBegin]`) and the
still-`None` suffix (`typesInfo[noneBegin:]`), with each entry's setter
co-sorted.  The fuel is the middle-segment length, which both loop steps
decrease by exactly one (it makes the recursion structural; the zero-fuel
cons case is unreachable from here). -/
def sortApartCoSortEntrySetters (pairs : List (TypeInfo × CacheEntrySetter)) :
    List (TypeInfo × CacheEntrySetter) × List (TypeInfo × CacheEntrySetter) :=
  sortApartAux (fun pr => pr.1.typ != LedisType.none) pairs.length pairs []

/-- The fixed probing order of `Resolver.activeResolve`. -/
def ledisTypesOrder : List LedisType :=
  [.kv, .list, .hash, .set, .zset]

/-- The round loop of `Resolver.activeResolve`.  Each round probes the
still-untyped entries, completes the setters of the keys found this round
with `Exists`, and continues on the `None` suffix.  After the last round
the remaining setters are completed with `Deleted`.  On a probe failure the
source completes all remaining owned setters with `Error` and returns the
error; the `Except` carries only the error (the cache mutations of that
dead-end path are unobservable to the caller of `ResolveAppend`). -/
def activeResolveLoop (probe : ProbeOracle) (c : CacheState) :
    List LedisType → List (TypeInfo × CacheEntrySetter) →
    Except RErr (CacheState × List TypeInfo)
  | [], pairs =>
      let c := pairs.foldl (fun c pr => pr.2.Set .deleted .none c) c
      .ok (c, pairs.map (·.1))
  | t :: rest, pairs =>
      match checkType probe t pairs with
      | .error e => .error e
      | .ok pairs' =>
          let fb := sortApartCoSortEntrySetters pairs'
          let c := fb.1.foldl (fun c pr => pr.2.Set .found pr.1.typ c) c
          if fb.2.isEmpty then .ok (c, fb.1.map (·.1))
          else
            match activeResolveLoop probe c rest fb.2 with
            | .error e => .error e
            | .ok (c', tail) => .ok (c', fb.1.map (·.1) ++ tail)

/-- `Resolver.activeResolve`. -/
def activeResolve (probe : ProbeOracle) (c : CacheState)
    (pairs : List (TypeInfo × CacheEntrySetter)) :
    Except RErr (CacheState × List TypeInfo) :=
  activeResolveLoop probe c ledisTypesOrder pairs

/-- `Resolver.waitResolve`: for each remembered `Loading` snapshot (in
order), wait for its completion or cancellation and fill in the `Type` of
the corresponding pre-keyed `typesInfo` slot.  A missing slot would be an
out-of-range write in the source. -/
def waitResolve (wait : String → WaitOutcome) :
    List CacheEntryData → List TypeInfo → Except RErr (List TypeInfo)
  | [], seg => .ok seg
  | _ :: _, [] => .error .panicked
  | ed :: eds, ti :: tis =>
      match wait ed.Key with
      | .found t =>
          match waitResolve wait eds tis with
          | .error e => .error e
          | .ok rest => .ok ({ ti with typ := t } :: rest)
      | .deleted =>
          match waitResolve wait eds tis with
          | .error e => .error e
          | .ok rest => .ok ({ ti with typ := .none } :: rest)
      | .errored => .error .errorCacheEntryState
      | .cancelled => .error .ctxCancelled

/-- The classification loop of `Resolver.ResolveAppend`: look up every key
in the cache, appending `Exists` hits to the output, remembering `Loading`
snapshots to wait on and collecting the setters of the keys this call now
owns.  The defensive branch for any other state (unreachable, because
`LoadOrCreateEntry` only reports `exists` for `Exists`/`Loading`) completes
the accumulated setters with `Error` and fails. -/
def classifyKeys (c : CacheState) :
    List String → List TypeInfo → List CacheEntryData → List CacheEntrySetter →
    Except RErr (CacheState × List TypeInfo × List CacheEntryData × List CacheEntrySetter)
  | [], out, eds, setters => .ok (c, out, eds, setters)
  | key :: keys, out, eds, setters =>
      let r := c.LoadOrCreateEntry key
      if r.2.2.2 then
        if r.2.1.state = .found then
          classifyKeys r.1 keys (out ++ [⟨key, r.2.1.typ⟩]) eds setters
        else if r.2.1.state = .loading then
          classifyKeys r.1 keys out (eds ++ [r.2.1]) setters
        else
          .error .unexpectedCacheEntryState
      else
        classifyKeys r.1 keys out eds (setters ++ [r.2.2.1])

/-- The key-assignment loops of `ResolveAppend`:
`for i := beginIndex; i < len(typesInfo); i++ { typesInfo[i].Key = xs[i].Key }`.
The loop indexes the length-`n` side list with the absolute output index
`i = beginIndex + j` instead of the relative `j`; whenever `beginIndex > 0`
and the list is non-empty this runs past the end of the side list — an
index-out-of-range panic in Go, `RErr.panicked` here. -/
def assignSegmentKeysAux (names : List String) : Nat → Nat → Except RErr (List TypeInfo)
  | _, 0 => .ok []
  | i, n + 1 =>
      match names[i]? with
      | Option.some k =>
          match assignSegmentKeysAux names (i + 1) n with
          | .error e => .error e
          | .ok rest => .ok (⟨k, .none⟩ :: rest)
      | Option.none => .error .panicked

/-- See `assignSegmentKeysAux`: the loop writes `names.length` output slots
starting at the read cursor `beginIndex`. -/
def assignSegmentKeys (beginIndex : Nat) (names : List String) : Except RErr (List TypeInfo) :=
  assignSegmentKeysAux names beginIndex names.length

/-- `Resolver.ResolveAppend`.  `typesInfo` is the caller-supplied slice to
append to; `keys` the batch to resolve.  On an error the Go function
returns the unmodified input slice together with the error; the `Except`
models the error result. -/
def ResolveAppend (c : CacheState) (probe : ProbeOracle) (wait : String → WaitOutcome)
    (typesInfo : List TypeInfo) (keys : List String) :
    Except RErr (CacheState × List TypeInfo) :=
  match classifyKeys c keys typesInfo [] [] with
  | .error e => .error e
  | .ok (c1, out1, entriesData, entrySetters) =>
      match assignSegmentKeys out1.length (entrySetters.map (·.Key)) with
      | .error e => .error e
      | .ok seg1 =>
          match activeResolve probe c1 (seg1.zip entrySetters) with
          | .error e => .error e
          | .ok (c2, ownedSeg) =>
              let out2 := out1 ++ ownedSeg
              match assignSegmentKeys out2.length (entriesData.map (·.Key)) with
              | .error e => .error e
              | .ok seg2 =>
                  match waitResolve wait entriesData seg2 with
                  | .error e => .error e
                  | .ok waitedSeg => .ok (c2, out2 ++ waitedSeg)

/-- The `Rewriter` as seen by transforms and connections: the shared type
cache plus the environment the resolver runs against (the probing backend
reached through the sub-pool, and the completions observed for entries
loaded by concurrent resolver calls). -/
structure Rewriter where
  cache : CacheState
  probe : ProbeOracle
  wait : String → WaitOutcome

/-- The per-command transforms of the catalog, defunctionalized so that
`RedisCommand` can refer to them; `applyTransform` dispatches to the
function each tag names.  `noneTransform` is `NoneTransformer()`. -/
inductive TransformKind where
  | noneTransform
  | typeSpecificBulk (config : TypeSpecificBulkTransformerConfig)
  | set
  | zadd
  | restore
  | ping
  | script
  | unsafeCommand

/-- `RedisCommand` from `dbtypes.go`.  `TransformFunc` holds the transform's
tag; the `Syntax` documentation string is kept as `SyntaxStr`. -/
structure RedisCommand where
  Name : String
  KeyType : RedisType
  KeyExtractor : ArgsExtractor
  TransformFunc : TransformKind
  SyntaxStr : String

/-- The reply-processing function of a one-reply slot (`replies[0]`); an
empty list would be an out-of-range panic in Go. -/
def firstReply (replies : List Reply) : Except RErr Reply :=
  match replies with
  | [] => .error .panicked
  | r :: _ => .ok r

/-- `NoneTransformer()`: forward the command unchanged, expect one reply,
return it unchanged. -/
def NoneTransformer (rw : Rewriter) (command : RedisCommand) (args : List Arg) :
    Except RErr (Rewriter × SendLedisFunc) :=
  .ok (rw, fun ledisConn =>
    .ok (ledisConn.send command.Name args,
      { RepliesCount := 1, ProcessFunc := firstReply }))

/-- `Aggregator`: reduce the collected replies.  `Aggregation` is a closed
inductive here, so the `default:` branch of the Go `switch` (reachable only
through an out-of-range `int8`) has no counterpart. -/
def Aggregator (aggregation : Aggregation) (replies : List Reply) : Except RErr Reply :=
  match aggregation with
  | .sum =>
      match replies.foldlM (fun sum r => (redisInt64 r).map (sum + ·)) (0 : Int) with
      | .error e => .error e
      | .ok sum => .ok (.int sum)
  | .countOne => .ok (.int replies.length)
  | .first =>
      match replies with
      | [] => .ok .nil
      | r :: _ => .ok r

/-- `sendBulk`: issue the per-type command for one bin.  With `debulk` one
command per key (`cmd key appendArgs…`), otherwise one command for the
whole bin (`cmd key₁ … keyₙ appendArgs…`).  Returns the connection with
the commands appended and the number of commands sent.  (The buffered
`conn.Send` never fails in this model, see `WireConn`.) -/
def sendBulk (command : String) (keys : List String) (conn : WireConn) (debulk : Bool)
    (appendArgs : List Arg) : WireConn × Nat :=
  if command.length > 0 ∧ keys.length > 0 then
    if debulk then
      keys.foldl (fun wn key => (wn.1.send command ([.str key] ++ appendArgs), wn.2 + 1))
        (conn, 0)
    else
      (conn.send command (keys.map .str ++ appendArgs), 1)
  else
    (conn, 0)

/-- `sendBulkForAllTypes`: the six bins in the fixed order None, KV, List,
Hash, Set, ZSet; the reply count is accumulated across bins. -/
def sendBulkForAllTypes (config : TypeSpecificBulkTransformerConfig)
    (keyTypeAggregation : KeyTypeAggregation) (ledisConn : WireConn)
    (appendArgs : List Arg) : WireConn × Nat :=
  let r0 := sendBulk config.Commands.none keyTypeAggregation.none ledisConn config.Debulk appendArgs
  let r1 := sendBulk config.Commands.kv keyTypeAggregation.kv r0.1 config.Debulk appendArgs
  let r2 := sendBulk config.Commands.list keyTypeAggregation.list r1.1 config.Debulk appendArgs
  let r3 := sendBulk config.Commands.hash keyTypeAggregation.hash r2.1 config.Debulk appendArgs
  let r4 := sendBulk config.Commands.set keyTypeAggregation.set r3.1 config.Debulk appendArgs
  let r5 := sendBulk config.Commands.zset keyTypeAggregation.zset r4.1 config.Debulk appendArgs
  (r5.1, r0.2 + r1.2 + r2.2 + r3.2 + r4.2 + r5.2)

/-- The `SendLedisFunc` returned by `TypeSpecificBulkTransformer` (the
closure over the computed partition and extracted append arguments): issue
the per-type bulk commands and package the reply count with the
aggregator. -/
def typeSpecificPlan (config : TypeSpecificBulkTransformerConfig)
    (keyTypeAggregation : KeyTypeAggregation) (appendArgs : List Arg) : SendLedisFunc :=
  fun ledisConn =>
    let r := sendBulkForAllTypes config keyTypeAggregation ledisConn appendArgs
    .ok (r.1, { RepliesCount := r.2, ProcessFunc := Aggregator config.Aggregation })

/-- `TypeSpecificBulkTransformer(config)`: extract the key arguments,
resolve their backend types (against an empty output prefix), partition by
type, and return the send-plan that bulk-issues the per-type commands and
reduces with `Aggregator`. -/
def TypeSpecificBulkTransformer (config : TypeSpecificBulkTransformerConfig)
    (rw : Rewriter) (command : RedisCommand) (args : List Arg) :
    Except RErr (Rewriter × SendLedisFunc) :=
  match command.KeyExtractor.AppendArgs args with
  | .error e => .error e
  | .ok keyArgs =>
      let keys := rewledisArgs.AppendAsSimpleStrings [] keyArgs
      match ResolveAppend rw.cache rw.probe rw.wait [] keys with
      | .error e => .error e
      | .ok (cache', typesInfo) =>
          let appendArgsE : Except RErr (List Arg) :=
            match config.AppendArgsExtractor with
            | Option.some ex => ex.AppendArgs args
            | Option.none => .ok []
          match appendArgsE with
          | .error e => .error e
          | .ok appendArgs =>
              let keyTypeAggregation := KeyTypeAggregation.AppendKeys {} typesInfo
              .ok ({ rw with cache := cache' }, typeSpecificPlan config keyTypeAggregation appendArgs)

/-- Two's-complement wrap-around of Go `int64` arithmetic. -/
def int64Wrap (n : Int) : Int :=
  (n + 2 ^ 63) % 2 ^ 64 - 2 ^ 63

/-- `setCommandInfo` from `transformers.go`. -/
structure setCommandInfo where
  EXSet : Bool := false
  EX : Int := 0
  PXSet : Bool := false
  PX : Int := 0
  NXSet : Bool := false
  XXSet : Bool := false
deriving DecidableEq

/-- The modifier loop of `parseSetCommand` (indices `2 ≤ i < len(args)`;
`EX`/`PX` consume the following value argument). -/
def parseSetLoop : List Arg → setCommandInfo → Except RErr setCommandInfo
  | [], info => .ok info
  | a :: rest, info =>
      let argInfo := rewledisArgs.Parse a
      if ¬ argInfo.IsStringLike then .error .invalidArgumentType
      else if argInfo.EqualFoldEither "EX" "EX" then
        match rest with
        | [] => .error .invalidSyn
        | v :: rest' =>
            match (rewledisArgs.Parse v).ConvertToInt with
            | .error e => .error e
            | .ok n => parseSetLoop rest' { info with EX := n, EXSet := true }
      else if argInfo.EqualFoldEither "PX" "PX" then
        match rest with
        | [] => .error .invalidSyn
        | v :: rest' =>
            match (rewledisArgs.Parse v).ConvertToInt with
            | .error e => .error e
            | .ok n => parseSetLoop rest' { info with PX := n, PXSet := true }
      else if argInfo.EqualFoldEither "NX" "NX" then
        parseSetLoop rest { info with NXSet := true }
      else if argInfo.EqualFoldEither "XX" "XX" then
        parseSetLoop rest { info with XXSet := true }
      else .error .invalidSyn

/-- `parseSetCommand`. -/
def parseSetCommand (args : List Arg) : Except RErr setCommandInfo :=
  if args.length < 2 then .error .invalidSyn
  else parseSetLoop (args.drop 2) {}

/-- The reply reduction of the SET transform: with `transformNX` the SETNX
reply is interpreted as a boolean and folded to `"OK"` / nil, otherwise the
first reply passes through. -/
def setProcessFunc (transformNX : Bool) (replies : List Reply) : Except RErr Reply :=
  if transformNX then
    match replies with
    | [] => .error .panicked
    | r :: _ =>
        match redisBool r with
        | .error e => .error e
        | .ok wasSet => if ¬ wasSet then .ok .nil else .ok (.str "OK")
  else firstReply replies

/-- `SetCommandTransformer`.  `expDuration` for `PX` is the Go expression
`(commandInfo.PX + 999) / 1000`: int64 addition (wrapping on overflow, as
the source comment notes) followed by division truncating toward zero. -/
def SetCommandTransformer (rw : Rewriter) (command : RedisCommand) (args : List Arg) :
    Except RErr (Rewriter × SendLedisFunc) :=
  match parseSetCommand args with
  | .error e => .error e
  | .ok commandInfo =>
      if commandInfo.XXSet ∧ commandInfo.NXSet then .error .invalidArgumentCombination
      else if commandInfo.EXSet ∧ commandInfo.PXSet then .error .invalidArgumentCombination
      else
        let expSet := if commandInfo.PXSet then true else commandInfo.EXSet
        let expDuration :=
          if commandInfo.PXSet then (int64Wrap (commandInfo.PX + 999)).tdiv 1000
          else commandInfo.EX
        if commandInfo.XXSet then .error .noEmulationPossible
        else
          .ok (rw, fun ledisConn =>
            match args with
            | a0 :: a1 :: _ =>
                if commandInfo.NXSet then
                  let w := ledisConn.send "SETNX" [a0, a1]
                  if expSet then
                    .ok (w.send "EXPIRE" [a0, .int expDuration],
                      { RepliesCount := 2, ProcessFunc := setProcessFunc true })
                  else
                    .ok (w, { RepliesCount := 1, ProcessFunc := setProcessFunc true })
                else if expSet then
                  .ok (ledisConn.send "SETEX" [a0, .int expDuration, a1],
                    { RepliesCount := 1, ProcessFunc := setProcessFunc false })
                else
                  .ok (ledisConn.send "SET" [a0, a1],
                    { RepliesCount := 1, ProcessFunc := setProcessFunc false })
            | _ => .error .panicked)

/-- `zaddCommandInfo` from `transformers.go`. -/
structure zaddCommandInfo where
  NumFlags : Nat := 0
  NXSet : Bool := false
  XXSet : Bool := false
  INCRSet : Bool := false
  CHSet : Bool := false
deriving DecidableEq

/-- The flag loop of `parseZaddCommand` (indices `1 ≤ i < len(args)`).  Note
the source increments `NumFlags` before checking whether the string-like
argument actually is one of the four flags, so the first non-flag
string-like tail argument is also counted. -/
def parseZaddLoop : List Arg → zaddCommandInfo → zaddCommandInfo
  | [], info => info
  | a :: rest, info =>
      let argInfo := rewledisArgs.Parse a
      if ¬ argInfo.IsStringLike then info
      else
        let info := { info with NumFlags := info.NumFlags + 1 }
        if argInfo.EqualFoldEither "NX" "NX" then
          parseZaddLoop rest { info with NXSet := true }
        else if argInfo.EqualFoldEither "XX" "XX" then
          parseZaddLoop rest { info with XXSet := true }
        else if argInfo.EqualFoldEither "INCR" "INCR" then
          parseZaddLoop rest { info with INCRSet := true }
        else if argInfo.EqualFoldEither "CH" "CH" then
          parseZaddLoop rest { info with CHSet := true }
        else info

/-- `parseZaddCommand`. -/
def parseZaddCommand (args : List Arg) : Except RErr zaddCommandInfo :=
  if args.length < 3 then .error .invalidSyn
  else
    let info := parseZaddLoop (args.drop 1) {}
    if (args.length - (info.NumFlags + 1)) % 2 ≠ 0 then .error .invalidSyn
    else .ok info

/-- `ZaddCommandTransformer`.  In the non-INCR branch the source passes the
score/member tail as `args[commandInfo.NumFlags+1:]` — a single slice value,
not spread with `...` — so the whole tail reaches `conn.Send` as one
argument; this is modelled by `Arg.list`. -/
def ZaddCommandTransformer (rw : Rewriter) (command : RedisCommand) (args : List Arg) :
    Except RErr (Rewriter × SendLedisFunc) :=
  match parseZaddCommand args with
  | .error e => .error e
  | .ok commandInfo =>
      if commandInfo.XXSet ∧ commandInfo.NXSet then .error .invalidArgumentCombination
      else if commandInfo.XXSet ∨ commandInfo.NXSet ∨ commandInfo.CHSet then
        .error .noEmulationPossible
      else if commandInfo.INCRSet ∧ args.length - (commandInfo.NumFlags + 1) ≠ 2 then
        .error .invalidSyn
      else
        .ok (rw, fun ledisConn =>
          if commandInfo.INCRSet then
            match args[0]?, args[commandInfo.NumFlags + 1]?, args[commandInfo.NumFlags + 2]? with
            | Option.some a0, Option.some s, Option.some m =>
                .ok (ledisConn.send "ZINCRBY" [a0, s, m],
                  { RepliesCount := 1, ProcessFunc := firstReply })
            | _, _, _ => .error .panicked
          else
            match args[0]? with
            | Option.some a0 =>
                .ok (ledisConn.send "ZADD" [a0, .list (args.drop (commandInfo.NumFlags + 1))],
                  { RepliesCount := 1, ProcessFunc := firstReply })
            | Option.none => .error .panicked)

/-- `restoreCommandInfo` from `transformers.go`. -/
structure restoreCommandInfo where
  REPLACESet : Bool := false
  ABSTTLSet : Bool := false
  IDLETIMESet : Bool := false
  IDLETIME : Int := 0
  FREQSet : Bool := false
  FREQ : Int := 0
deriving DecidableEq

/-- The modifier loop of `parseRestoreCommand` (indices `1 ≤ i < len(args)`).
The `FREQ` branch of the source stores the parsed value in `info.FREQ` but
then sets `IDLETIMESet` (not `FREQSet`) — reproduced as-is. -/
def parseRestoreLoop : List Arg → restoreCommandInfo → Except RErr restoreCommandInfo
  | [], info => .ok info
  | a :: rest, info =>
      let argInfo := rewledisArgs.Parse a
      if ¬ argInfo.IsStringLike then .error .invalidArgumentType
      else if argInfo.EqualFoldEither "REPLACE" "REPLACE" then
        parseRestoreLoop rest { info with REPLACESet := true }
      else if argInfo.EqualFoldEither "ABSTTL" "ABSTTL" then
        parseRestoreLoop rest { info with ABSTTLSet := true }
      else if argInfo.EqualFoldEither "IDLETIME" "IDLETIME" then
        match rest with
        | [] => .error .invalidSyn
        | v :: rest' =>
            match (rewledisArgs.Parse v).ConvertToInt with
            | .error e => .error e
            | .ok n => parseRestoreLoop rest' { info with IDLETIME := n, IDLETIMESet := true }
      else if argInfo.EqualFoldEither "FREQ" "FREQ" then
        match rest with
        | [] => .error .invalidSyn
        | v :: rest' =>
            match (rewledisArgs.Parse v).ConvertToInt with
            | .error e => .error e
            | .ok n => parseRestoreLoop rest' { info with FREQ := n, IDLETIMESet := true }
      else .error .invalidSyn

/-- `parseRestoreCommand`. -/
def parseRestoreCommand (args : List Arg) : Except RErr restoreCommandInfo :=
  if args.length < 3 then .error .invalidSyn
  else parseRestoreLoop (args.drop 1) {}

/-- `RestoreCommandTransformer`: with `ABSTTL` the command is rewritten to
`RESTORE key 0 value` followed by `EXPIREAT key timestamp`, otherwise
forwarded unchanged (modifiers beyond the first three arguments have been
parsed away by then — and, in the source, simply not re-emitted). -/
def RestoreCommandTransformer (rw : Rewriter) (command : RedisCommand) (args : List Arg) :
    Except RErr (Rewriter × SendLedisFunc) :=
  match parseRestoreCommand args with
  | .error e => .error e
  | .ok commandInfo =>
      let expireAtE : Except RErr Int :=
        if commandInfo.ABSTTLSet then
          match args[1]? with
          | Option.some a1 => (rewledisArgs.Parse a1).ConvertToInt
          | Option.none => .error .panicked
        else .ok 0
      match expireAtE with
      | .error e => .error e
      | .ok expireAtTimestamp =>
          .ok (rw, fun ledisConn =>
            match args with
            | a0 :: a1 :: a2 :: _ =>
                if commandInfo.ABSTTLSet then
                  let w := ledisConn.send "RESTORE" [a0, .int 0, a2]
                  .ok (w.send "EXPIREAT" [a0, .int expireAtTimestamp],
                    { RepliesCount := 2, ProcessFunc := firstReply })
                else
                  .ok (ledisConn.send "RESTORE" [a0, a1, a2],
                    { RepliesCount := 1, ProcessFunc := firstReply })
            | _ => .error .panicked)

/-- `PingCommandTransformer`: bare `PING` forwards unchanged; `PING msg`
sends an argument-less `PING` and synthesizes the reply from the
client-supplied message. -/
def PingCommandTransformer (rw : Rewriter) (command : RedisCommand) (args : List Arg) :
    Except RErr (Rewriter × SendLedisFunc) :=
  if args.length = 0 then
    NoneTransformer rw command args
  else if args.length = 1 then
    match args[0]? with
    | Option.none => .error .panicked
    | Option.some a0 =>
        match (rewledisArgs.Parse a0).ConvertToRedisString with
        | .error e => .error e
        | .ok message =>
            .ok (rw, fun ledisConn =>
              .ok (ledisConn.send command.Name [],
                { RepliesCount := 1, ProcessFunc := fun _ => .ok (.str message) }))
  else .error .invalidSyn

/-- `ScriptCommandTransformer`: `EXISTS`/`FLUSH`/`LOAD` pass through
unchanged, other sub-commands are not implemented. -/
def ScriptCommandTransformer (rw : Rewriter) (command : RedisCommand) (args : List Arg) :
    Except RErr (Rewriter × SendLedisFunc) :=
  match args with
  | [] => .error .invalidSyn
  | a0 :: _ =>
      let argInfo := rewledisArgs.Parse a0
      if ¬ argInfo.IsStringLike then .error .invalidArgumentType
      else if argInfo.EqualFoldEither "EXISTS" "EXISTS" then NoneTransformer rw command args
      else if argInfo.EqualFoldEither "FLUSH" "FLUSH" then NoneTransformer rw command args
      else if argInfo.EqualFoldEither "LOAD" "LOAD" then NoneTransformer rw command args
      else .error .subCommandNotImplemented

/-- `UnsafeCommandTransformer`: `UNSAFE LEDIS cmd args…` forwards a raw
backend command; `UNSAFE SELF` produces a zero-reply slot whose reduction
returns the wire connection itself (the opaque `Reply.connHandle`). -/
def UnsafeCommandTransformer (rw : Rewriter) (command : RedisCommand) (args : List Arg) :
    Except RErr (Rewriter × SendLedisFunc) :=
  match args with
  | [] => .error .invalidSyn
  | a0 :: _ =>
      let argInfo := rewledisArgs.Parse a0
      if ¬ argInfo.IsStringLike then .error .invalidArgumentType
      else if argInfo.EqualFoldEither "LEDIS" "LEDIS" then
        if args.length < 2 then .error .invalidSyn
        else
          match args[1]? with
          | Option.none => .error .panicked
          | Option.some a1 =>
              let commandArgInfo := rewledisArgs.Parse a1
              if ¬ commandArgInfo.IsStringLike then .error .invalidArgumentType
              else
                match commandArgInfo.ConvertToRedisString with
                | .error e => .error e
                | .ok commandName =>
                    .ok (rw, fun ledisConn =>
                      .ok (ledisConn.send commandName (args.drop 2),
                        { RepliesCount := 1, ProcessFunc := firstReply }))
      else if argInfo.EqualFoldEither "SELF" "SELF" then
        if args.length ≠ 1 then .error .invalidSyn
        else
          .ok (rw, fun ledisConn =>
            .ok (ledisConn,
              { RepliesCount := 0, ProcessFunc := fun _ => .ok .connHandle }))
      else .error .subCommandUnknown

/-! The command catalog (the `RedisCommand` variables of the source, richer
variant: generic commands are type-specific bulk instantiations, `SORT`
included). -/

/-- Catalog entry for `APPEND`. -/
def RedisCommandAPPEND : RedisCommand :=
  { Name := "APPEND", KeyType := .string, KeyExtractor := ArgsAtIndices [0],
    TransformFunc := .noneTransform,
    SyntaxStr := "APPEND key value" }

/-- Catalog entry for `BITCOUNT`. -/
def RedisCommandBITCOUNT : RedisCommand :=
  { Name := "BITCOUNT", KeyType := .string, KeyExtractor := ArgsAtIndices [0],
    TransformFunc := .noneTransform,
    SyntaxStr := "BITCOUNT key [start end]" }

/-- Catalog entry for `BITOP`. -/
def RedisCommandBITOP : RedisCommand :=
  { Name := "BITOP", KeyType := .string, KeyExtractor := ArgsFromIndex 1,
    TransformFunc := .noneTransform,
    SyntaxStr := "BITOP operation destkey key [key ...]" }

/-- Catalog entry for `BITPOS`. -/
def RedisCommandBITPOS : RedisCommand :=
  { Name := "BITPOS", KeyType := .string, KeyExtractor := ArgsAtIndices [0],
    TransformFunc := .noneTransform,
    SyntaxStr := "BITPOS key bit [start] [end]" }

/-- Catalog entry for `DECR`. -/
def RedisCommandDECR : RedisCommand :=
  { Name := "DECR", KeyType := .string, KeyExtractor := ArgsAtIndices [0],
    TransformFunc := .noneTransform,
    SyntaxStr := "DECR key" }

/-- Catalog entry for `DECRBY`. -/
def RedisCommandDECRBY : RedisCommand :=
  { Name := "DECRBY", KeyType := .string, KeyExtractor := ArgsAtIndices [0],
    TransformFunc := .noneTransform,
    SyntaxStr := "DECRBY key decrement" }

/-- Catalog entry for `GET`. -/
def RedisCommandGET : RedisCommand :=
  { Name := "GET", KeyType := .string, KeyExtractor := ArgsAtIndices [0],
    TransformFunc := .noneTransform,
    SyntaxStr := "GET key" }

/-- Catalog entry for `GETBIT`. -/
def RedisCommandGETBIT : RedisCommand :=
  { Name := "GETBIT", KeyType := .string, KeyExtractor := ArgsAtIndices [0],
    TransformFunc := .noneTransform,
    SyntaxStr := "GETBIT key offset" }

/-- Catalog entry for `GETRANGE`. -/
def RedisCommandGETRANGE : RedisCommand :=
  { Name := "GETRANGE", KeyType := .string, KeyExtractor := ArgsAtIndices [0],
    TransformFunc := .noneTransform,
    SyntaxStr := "GETRANGE key start end" }

/-- Catalog entry for `GETSET`. -/
def RedisCommandGETSET : RedisCommand :=
  { Name := "GETSET", KeyType := .string, KeyExtractor := ArgsAtIndices [0],
    TransformFunc := .noneTransform,
    SyntaxStr := "GETSET key value" }

/-- Catalog entry for `INCR`. -/
def RedisCommandINCR : RedisCommand :=
  { Name := "INCR", KeyType := .string, KeyExtractor := ArgsAtIndices [0],
    TransformFunc := .noneTransform,
    SyntaxStr := "INCR key" }

/-- Catalog entry for `INCRBY`. -/
def RedisCommandINCRBY : RedisCommand :=
  { Name := "INCRBY", KeyType := .string, KeyExtractor := ArgsAtIndices [0],
    TransformFunc := .noneTransform,
    SyntaxStr := "INCRBY key increment" }

/-- Catalog entry for `MGET`. -/
def RedisCommandMGET : RedisCommand :=
  { Name := "MGET", KeyType := .string, KeyExtractor := ArgsFromIndex 0,
    TransformFunc := .noneTransform,
    SyntaxStr := "MGET key [key ...]" }

/-- Catalog entry for `MSET`. -/
def RedisCommandMSET : RedisCommand :=
  { Name := "MSET", KeyType := .string, KeyExtractor := ArgsFromIndex 0 1,
    TransformFunc := .noneTransform,
    SyntaxStr := "MSET key value [key value ...]" }

/-- Catalog entry for `SET`. -/
def RedisCommandSET : RedisCommand :=
  { Name := "SET", KeyType := .string, KeyExtractor := ArgsAtIndices [0],
    TransformFunc := .set,
    SyntaxStr := "SET key value [expiration EX seconds|PX milliseconds] [NX|XX]" }

/-- Catalog entry for `SETBIT`. -/
def RedisCommandSETBIT : RedisCommand :=
  { Name := "SETBIT", KeyType := .string, KeyExtractor := ArgsAtIndices [0],
    TransformFunc := .noneTransform,
    SyntaxStr := "SETBIT key offset value" }

/-- Catalog entry for `SETEX`. -/
def RedisCommandSETEX : RedisCommand :=
  { Name := "SETEX", KeyType := .string, KeyExtractor := ArgsAtIndices [0],
    TransformFunc := .noneTransform,
    SyntaxStr := "SETEX key seconds value" }

/-- Catalog entry for `SETNX`. -/
def RedisCommandSETNX : RedisCommand :=
  { Name := "SETNX", KeyType := .string, KeyExtractor := ArgsAtIndices [0],
    TransformFunc := .noneTransform,
    SyntaxStr := "SETNX key value" }

/-- Catalog entry for `SETRANGE`. -/
def RedisCommandSETRANGE : RedisCommand :=
  { Name := "SETRANGE", KeyType := .string, KeyExtractor := ArgsAtIndices [0],
    TransformFunc := .noneTransform,
    SyntaxStr := "SETRANGE key offset value" }

/-- Catalog entry for `STRLEN`. -/
def RedisCommandSTRLEN : RedisCommand :=
  { Name := "STRLEN", KeyType := .string, KeyExtractor := ArgsAtIndices [0],
    TransformFunc := .noneTransform,
    SyntaxStr := "STRLEN key" }

/-- Catalog entry for `HDEL`. -/
def RedisCommandHDEL : RedisCommand :=
  { Name := "HDEL", KeyType := .hash, KeyExtractor := ArgsAtIndices [0],
    TransformFunc := .noneTransform,
    SyntaxStr := "HDEL key field [field ...]" }

/-- Catalog entry for `HEXISTS`. -/
def RedisCommandHEXISTS : RedisCommand :=
  { Name := "HEXISTS", KeyType := .hash, KeyExtractor := ArgsAtIndices [0],
    TransformFunc := .noneTransform,
    SyntaxStr := "HEXISTS key field" }

/-- Catalog entry for `HGET`. -/
def RedisCommandHGET : RedisCommand :=
  { Name := "HGET", KeyType := .hash, KeyExtractor := ArgsAtIndices [0],
    TransformFunc := .noneTransform,
    SyntaxStr := "HGET key field" }

/-- Catalog entry for `HGETALL`. -/
def RedisCommandHGETALL : RedisCommand :=
  { Name := "HGETALL", KeyType := .hash, KeyExtractor := ArgsAtIndices [0],
    TransformFunc := .noneTransform,
    SyntaxStr := "HGETALL key" }

/-- Catalog entry for `HINCRBY`. -/
def RedisCommandHINCRBY : RedisCommand :=
  { Name := "HINCRBY", KeyType := .hash, KeyExtractor := ArgsAtIndices [0],
    TransformFunc := .noneTransform,
    SyntaxStr := "HINCRBY key field increment" }

/-- Catalog entry for `HKEYS`. -/
def RedisCommandHKEYS : RedisCommand :=
  { Name := "HKEYS", KeyType := .hash, KeyExtractor := ArgsAtIndices [0],
    TransformFunc := .noneTransform,
    SyntaxStr := "HKEYS key" }

/-- Catalog entry for `HLEN`. -/
def RedisCommandHLEN : RedisCommand :=
  { Name := "HLEN", KeyType := .hash, KeyExtractor := ArgsAtIndices [0],
    TransformFunc := .noneTransform,
    SyntaxStr := "HLEN key" }

/-- Catalog entry for `HMGET`. -/
def RedisCommandHMGET : RedisCommand :=
  { Name := "HMGET", KeyType := .hash, KeyExtractor := ArgsAtIndices [0],
    TransformFunc := .noneTransform,
    SyntaxStr := "HMGET key field [field ...]" }

/-- Catalog entry for `HMSET`. -/
def RedisCommandHMSET : RedisCommand :=
  { Name := "HMSET", KeyType := .hash, KeyExtractor := ArgsAtIndices [0],
    TransformFunc := .noneTransform,
    SyntaxStr := "HMSET key field value [field value ...]" }

/-- Catalog entry for `HSET`. -/
def RedisCommandHSET : RedisCommand :=
  { Name := "HSET", KeyType := .hash, KeyExtractor := ArgsAtIndices [0],
    TransformFunc := .noneTransform,
    SyntaxStr := "HSET key field value" }

/-- Catalog entry for `HVALS`. -/
def RedisCommandHVALS : RedisCommand :=
  { Name := "HVALS", KeyType := .hash, KeyExtractor := ArgsAtIndices [0],
    TransformFunc := .noneTransform,
    SyntaxStr := "HVALS key" }

/-- Catalog entry for `HSCAN`. -/
def RedisCommandHSCAN : RedisCommand :=
  { Name := "HSCAN", KeyType := .hash, KeyExtractor := ArgsAtIndices [0],
    TransformFunc := .noneTransform,
    SyntaxStr := "HSCAN key cursor [MATCH pattern] [COUNT count]" }

/-- Catalog entry for `BLPOP`. -/
def RedisCommandBLPOP : RedisCommand :=
  { Name := "BLPOP", KeyType := .list, KeyExtractor := ArgsExtractor.fromUntilIndex 0 (-1) 0,
    TransformFunc := .noneTransform,
    SyntaxStr := "BLPOP key [key ...] timeout" }

/-- Catalog entry for `BRPOP`. -/
def RedisCommandBRPOP : RedisCommand :=
  { Name := "BRPOP", KeyType := .list, KeyExtractor := ArgsExtractor.fromUntilIndex 0 (-1) 0,
    TransformFunc := .noneTransform,
    SyntaxStr := "BRPOP key [key ...] timeout" }

/-- Catalog entry for `BRPOPLPUSH`. -/
def RedisCommandBRPOPLPUSH : RedisCommand :=
  { Name := "BRPOPLPUSH", KeyType := .list, KeyExtractor := ArgsAtIndices [0, 1],
    TransformFunc := .noneTransform,
    SyntaxStr := "BRPOPLPUSH source destination timeout" }

/-- Catalog entry for `LINDEX`. -/
def RedisCommandLINDEX : RedisCommand :=
  { Name := "LINDEX", KeyType := .list, KeyExtractor := ArgsAtIndices [0],
    TransformFunc := .noneTransform,
    SyntaxStr := "LINDEX key index" }

/-- Catalog entry for `LLEN`. -/
def RedisCommandLLEN : RedisCommand :=
  { Name := "LLEN", KeyType := .list, KeyExtractor := ArgsAtIndices [0],
    TransformFunc := .noneTransform,
    SyntaxStr := "LLEN key index" }

/-- Catalog entry for `LPOP`. -/
def RedisCommandLPOP : RedisCommand :=
  { Name := "LPOP", KeyType := .list, KeyExtractor := ArgsAtIndices [0],
    TransformFunc := .noneTransform,
    SyntaxStr := "LPOP key" }

/-- Catalog entry for `LRANGE`. -/
def RedisCommandLRANGE : RedisCommand :=
  { Name := "LRANGE", KeyType := .list, KeyExtractor := ArgsAtIndices [0],
    TransformFunc := .noneTransform,
    SyntaxStr := "LRANGE key start stop" }

/-- Catalog entry for `LPUSH`. -/
def RedisCommandLPUSH : RedisCommand :=
  { Name := "LPUSH", KeyType := .list, KeyExtractor := ArgsAtIndices [0],
    TransformFunc := .noneTransform,
    SyntaxStr := "LPUSH key value [value ...]" }

/-- Catalog entry for `LTRIM`. -/
def RedisCommandLTRIM : RedisCommand :=
  { Name := "LTRIM", KeyType := .list, KeyExtractor := ArgsAtIndices [0],
    TransformFunc := .noneTransform,
    SyntaxStr := "LTRIM key start stop" }

/-- Catalog entry for `RPOP`. -/
def RedisCommandRPOP : RedisCommand :=
  { Name := "RPOP", KeyType := .list, KeyExtractor := ArgsAtIndices [0],
    TransformFunc := .noneTransform,
    SyntaxStr := "RPOP key" }

/-- Catalog entry for `RPOPLPUSH`. -/
def RedisCommandRPOPLPUSH : RedisCommand :=
  { Name := "RPOPLPUSH", KeyType := .list, KeyExtractor := ArgsAtIndices [0, 1],
    TransformFunc := .noneTransform,
    SyntaxStr := "RPOPLPUSH source destination" }

/-- Catalog entry for `RPUSH`. -/
def RedisCommandRPUSH : RedisCommand :=
  { Name := "RPUSH", KeyType := .list, KeyExtractor := ArgsAtIndices [0],
    TransformFunc := .noneTransform,
    SyntaxStr := "RPUSH key value [value ...]" }

/-- Catalog entry for `SADD`. -/
def RedisCommandSADD : RedisCommand :=
  { Name := "SADD", KeyType := .set, KeyExtractor := ArgsAtIndices [0],
    TransformFunc := .noneTransform,
    SyntaxStr := "SADD key member [member ...]" }

/-- Catalog entry for `SCARD`. -/
def RedisCommandSCARD : RedisCommand :=
  { Name := "SCARD", KeyType := .set, KeyExtractor := ArgsAtIndices [0],
    TransformFunc := .noneTransform,
    SyntaxStr := "SCARD key" }

/-- Catalog entry for `SDIFF`. -/
def RedisCommandSDIFF : RedisCommand :=
  { Name := "SDIFF", KeyType := .set, KeyExtractor := ArgsFromIndex 0,
    TransformFunc := .noneTransform,
    SyntaxStr := "SDIFF key [key ...]" }

/-- Catalog entry for `SDIFFSTORE`. -/
def RedisCommandSDIFFSTORE : RedisCommand :=
  { Name := "SDIFFSTORE", KeyType := .set, KeyExtractor := ArgsFromIndex 0,
    TransformFunc := .noneTransform,
    SyntaxStr := "SDIFFSTORE destination key [key ...]" }

/-- Catalog entry for `SINTER`. -/
def RedisCommandSINTER : RedisCommand :=
  { Name := "SINTER", KeyType := .set, KeyExtractor := ArgsFromIndex 0,
    TransformFunc := .noneTransform,
    SyntaxStr := "SINTER key [key ...]" }

/-- Catalog entry for `SINTERSTORE`. -/
def RedisCommandSINTERSTORE : RedisCommand :=
  { Name := "SINTERSTORE", KeyType := .set, KeyExtractor := ArgsFromIndex 0,
    TransformFunc := .noneTransform,
    SyntaxStr := "SINTERSTORE destination key [key ...]" }

/-- Catalog entry for `SISMEMBER`. -/
def RedisCommandSISMEMBER : RedisCommand :=
  { Name := "SISMEMBER", KeyType := .set, KeyExtractor := ArgsAtIndices [0],
    TransformFunc := .noneTransform,
    SyntaxStr := "SISMEMBER key member" }

/-- Catalog entry for `SMEMBERS`. -/
def RedisCommandSMEMBERS : RedisCommand :=
  { Name := "SMEMBERS", KeyType := .set, KeyExtractor := ArgsAtIndices [0],
    TransformFunc := .noneTransform,
    SyntaxStr := "SMEMBERS key" }

/-- Catalog entry for `SREM`. -/
def RedisCommandSREM : RedisCommand :=
  { Name := "SREM", KeyType := .set, KeyExtractor := ArgsAtIndices [0],
    TransformFunc := .noneTransform,
    SyntaxStr := "SREM key member [member ...]" }

/-- Catalog entry for `SSCAN`. -/
def RedisCommandSSCAN : RedisCommand :=
  { Name := "SSCAN", KeyType := .set, KeyExtractor := ArgsAtIndices [0],
    TransformFunc := .noneTransform,
    SyntaxStr := "SSCAN key cursor [MATCH pattern] [COUNT count]" }

/-- Catalog entry for `SUNION`. -/
def RedisCommandSUNION : RedisCommand :=
  { Name := "SUNION", KeyType := .set, KeyExtractor := ArgsFromIndex 0,
    TransformFunc := .noneTransform,
    SyntaxStr := "SUNION key [key ...]" }

/-- Catalog entry for `SUNIONSTORE`. -/
def RedisCommandSUNIONSTORE : RedisCommand :=
  { Name := "SUNIONSTORE", KeyType := .set, KeyExtractor := ArgsFromIndex 0,
    TransformFunc := .noneTransform,
    SyntaxStr := "SUNIONSTORE destination key [key ...]" }

/-- Catalog entry for `ZADD`. -/
def RedisCommandZADD : RedisCommand :=
  { Name := "ZADD", KeyType := .zset, KeyExtractor := ArgsAtIndices [0],
    TransformFunc := .zadd,
    SyntaxStr := "ZADD key [NX|XX] [CH] [INCR] score member [score member ...]" }

/-- Catalog entry for `ZCARD`. -/
def RedisCommandZCARD : RedisCommand :=
  { Name := "ZCARD", KeyType := .zset, KeyExtractor := ArgsAtIndices [0],
    TransformFunc := .noneTransform,
    SyntaxStr := "ZCARD key" }

/-- Catalog entry for `ZCOUNT`. -/
def RedisCommandZCOUNT : RedisCommand :=
  { Name := "ZCOUNT", KeyType := .zset, KeyExtractor := ArgsAtIndices [0],
    TransformFunc := .noneTransform,
    SyntaxStr := "ZCOUNT key min max" }

/-- Catalog entry for `ZINCRBY`. -/
def RedisCommandZINCRBY : RedisCommand :=
  { Name := "ZINCRBY", KeyType := .zset, KeyExtractor := ArgsAtIndices [0],
    TransformFunc := .noneTransform,
    SyntaxStr := "ZINCRBY key increment member" }

/-- Catalog entry for `ZINTERSTORE`. -/
def RedisCommandZINTERSTORE : RedisCommand :=
  { Name := "ZINTERSTORE", KeyType := .zset, KeyExtractor := ArgsAtIndices [0],
    TransformFunc := .noneTransform,
    SyntaxStr := "ZINTERSTORE destination numkeys key [key ...] [WEIGHTS weight [weight ...]] [AGGREGATE SUM|MIN|MAX]" }

/-- Catalog entry for `ZLEXCOUNT`. -/
def RedisCommandZLEXCOUNT : RedisCommand :=
  { Name := "ZLEXCOUNT", KeyType := .zset, KeyExtractor := ArgsAtIndices [0],
    TransformFunc := .noneTransform,
    SyntaxStr := "ZLEXCOUNT key min max" }

/-- Catalog entry for `ZRANGE`. -/
def RedisCommandZRANGE : RedisCommand :=
  { Name := "ZRANGE", KeyType := .zset, KeyExtractor := ArgsAtIndices [0],
    TransformFunc := .noneTransform,
    SyntaxStr := "ZRANGE key start stop [WITHSCORES]" }

/-- Catalog entry for `ZRANGEBYLEX`. -/
def RedisCommandZRANGEBYLEX : RedisCommand :=
  { Name := "ZRANGEBYLEX", KeyType := .zset, KeyExtractor := ArgsAtIndices [0],
    TransformFunc := .noneTransform,
    SyntaxStr := "ZRANGEBYLEX key min max [LIMIT offset count]" }

/-- Catalog entry for `ZRANGEBYSCORE`. -/
def RedisCommandZRANGEBYSCORE : RedisCommand :=
  { Name := "ZRANGEBYSCORE", KeyType := .zset, KeyExtractor := ArgsAtIndices [0],
    TransformFunc := .noneTransform,
    SyntaxStr := "ZRANGEBYSCORE key min max [WITHSCORES] [LIMIT offset count]" }

/-- Catalog entry for `ZRANK`. -/
def RedisCommandZRANK : RedisCommand :=
  { Name := "ZRANK", KeyType := .zset, KeyExtractor := ArgsAtIndices [0],
    TransformFunc := .noneTransform,
    SyntaxStr := "ZRANK key member" }

/-- Catalog entry for `ZREM`. -/
def RedisCommandZREM : RedisCommand :=
  { Name := "ZREM", KeyType := .zset, KeyExtractor := ArgsAtIndices [0],
    TransformFunc := .noneTransform,
    SyntaxStr := "ZREM key member [member ...]" }

/-- Catalog entry for `ZREMRANGEBYLEX`. -/
def RedisCommandZREMRANGEBYLEX : RedisCommand :=
  { Name := "ZREMRANGEBYLEX", KeyType := .zset, KeyExtractor := ArgsAtIndices [0],
    TransformFunc := .noneTransform,
    SyntaxStr := "ZREMRANGEBYLEX key min max" }

/-- Catalog entry for `ZREMRANGEBYRANK`. -/
def RedisCommandZREMRANGEBYRANK : RedisCommand :=
  { Name := "ZREMRANGEBYRANK", KeyType := .zset, KeyExtractor := ArgsAtIndices [0],
    TransformFunc := .noneTransform,
    SyntaxStr := "ZREMRANGEBYRANK key start stop" }

/-- Catalog entry for `ZREMRANGEBYSCORE`. -/
def RedisCommandZREMRANGEBYSCORE : RedisCommand :=
  { Name := "ZREMRANGEBYSCORE", KeyType := .zset, KeyExtractor := ArgsAtIndices [0],
    TransformFunc := .noneTransform,
    SyntaxStr := "ZREMRANGEBYSCORE key min max" }

/-- Catalog entry for `ZREVRANGE`. -/
def RedisCommandZREVRANGE : RedisCommand :=
  { Name := "ZREVRANGE", KeyType := .zset, KeyExtractor := ArgsAtIndices [0],
    TransformFunc := .noneTransform,
    SyntaxStr := "ZREVRANGE key start stop [WITHSCORES]" }

/-- Catalog entry for `ZREVRANGEBYSCORE`. -/
def RedisCommandZREVRANGEBYSCORE : RedisCommand :=
  { Name := "ZREVRANGEBYSCORE", KeyType := .zset, KeyExtractor := ArgsAtIndices [0],
    TransformFunc := .noneTransform,
    SyntaxStr := "ZREVRANGEBYSCORE key max min [WITHSCORES] [LIMIT offset count]" }

/-- Catalog entry for `ZREVRANK`. -/
def RedisCommandZREVRANK : RedisCommand :=
  { Name := "ZREVRANK", KeyType := .zset, KeyExtractor := ArgsAtIndices [0],
    TransformFunc := .noneTransform,
    SyntaxStr := "ZREVRANK key member" }

/-- Catalog entry for `ZSCAN`. -/
def RedisCommandZSCAN : RedisCommand :=
  { Name := "ZSCAN", KeyType := .zset, KeyExtractor := ArgsAtIndices [0],
    TransformFunc := .noneTransform,
    SyntaxStr := "ZSCAN key cursor [MATCH pattern] [COUNT count]" }

/-- Catalog entry for `ZSCORE`. -/
def RedisCommandZSCORE : RedisCommand :=
  { Name := "ZSCORE", KeyType := .zset, KeyExtractor := ArgsAtIndices [0],
    TransformFunc := .noneTransform,
    SyntaxStr := "ZSCORE key member" }

/-- Catalog entry for `ZUNIONSTORE`. -/
def RedisCommandZUNIONSTORE : RedisCommand :=
  { Name := "ZUNIONSTORE", KeyType := .zset, KeyExtractor := ArgsAtIndices [0],
    TransformFunc := .noneTransform,
    SyntaxStr := "ZUNIONSTORE destination numkeys key [key ...] [WEIGHTS weight [weight ...]] [AGGREGATE SUM|MIN|MAX]" }

/-- Catalog entry for `DEL`. -/
def RedisCommandDEL : RedisCommand :=
  { Name := "DEL", KeyType := .generic, KeyExtractor := ArgsFromIndex 0,
    TransformFunc := .typeSpecificBulk
      { Commands := { kv := "DEL", list := "LMCLEAR", hash := "HMCLEAR", set := "SMCLEAR", zset := "ZMCLEAR" },
        Aggregation := .sum },
    SyntaxStr := "DEL key [key ...]" }

/-- Catalog entry for `DUMP`. -/
def RedisCommandDUMP : RedisCommand :=
  { Name := "DUMP", KeyType := .generic, KeyExtractor := ArgsAtIndices [0],
    TransformFunc := .typeSpecificBulk
      { Commands := { kv := "DUMP", list := "LDUMP", hash := "HDUMP", set := "SDUMP", zset := "ZDUMP" },
        Aggregation := .first },
    SyntaxStr := "DUMP key" }

/-- Catalog entry for `EXISTS`. -/
def RedisCommandEXISTS : RedisCommand :=
  { Name := "EXISTS", KeyType := .generic, KeyExtractor := ArgsAtIndices [0],
    TransformFunc := .typeSpecificBulk
      { Commands := { kv := "EXISTS", list := "LKEYEXISTS", hash := "HKEYEXISTS", set := "SKEYEXISTS", zset := "ZKEYEXISTS" },
        Debulk := true,
        Aggregation := .sum },
    SyntaxStr := "EXISTS key [key ...]" }

/-- Catalog entry for `EXPIRE`. -/
def RedisCommandEXPIRE : RedisCommand :=
  { Name := "EXPIRE", KeyType := .generic, KeyExtractor := ArgsAtIndices [0],
    TransformFunc := .typeSpecificBulk
      { Commands := { kv := "EXPIRE", list := "LEXPIRE", hash := "HEXPIRE", set := "SEXPIRE", zset := "ZEXPIRE" },
        Aggregation := .sum,
        AppendArgsExtractor := Option.some (ArgsAtIndices [1]) },
    SyntaxStr := "EXPIRE key seconds" }

/-- Catalog entry for `EXPIREAT`. -/
def RedisCommandEXPIREAT : RedisCommand :=
  { Name := "EXPIREAT", KeyType := .generic, KeyExtractor := ArgsAtIndices [0],
    TransformFunc := .typeSpecificBulk
      { Commands := { kv := "EXPIREAT", list := "LEXPIREAT", hash := "HEXPIREAT", set := "SEXPIREAT", zset := "ZEXPIREAT" },
        Aggregation := .sum,
        AppendArgsExtractor := Option.some (ArgsAtIndices [1]) },
    SyntaxStr := "EXPIREAT key timestamp" }

/-- Catalog entry for `PERSIST`. -/
def RedisCommandPERSIST : RedisCommand :=
  { Name := "PERSIST", KeyType := .generic, KeyExtractor := ArgsAtIndices [0],
    TransformFunc := .typeSpecificBulk
      { Commands := { kv := "PERSIST", list := "LPERSIST", hash := "HPERSIST", set := "SPERSIST", zset := "ZPERSIST" },
        Aggregation := .sum },
    SyntaxStr := "PERSIST key" }

/-- Catalog entry for `RESTORE`. -/
def RedisCommandRESTORE : RedisCommand :=
  { Name := "RESTORE", KeyType := .generic, KeyExtractor := ArgsAtIndices [0],
    TransformFunc := .restore,
    SyntaxStr := "RESTORE key ttl serialized-value [REPLACE] [ABSTTL] [IDLETIME seconds] [FREQ frequency]" }

/-- Catalog entry for `SORT`. -/
def RedisCommandSORT : RedisCommand :=
  { Name := "SORT", KeyType := .generic, KeyExtractor := ArgsAtIndices [0],
    TransformFunc := .typeSpecificBulk
      { Commands := { list := "XLSORT", set := "XSSORT", zset := "XZSORT" },
        Aggregation := .first },
    SyntaxStr := "SORT key [BY pattern] [LIMIT offset count] [GET pattern [GET pattern ...]] [ASC|DESC] [ALPHA] [STORE destination]" }

/-- Catalog entry for `TTL`. -/
def RedisCommandTTL : RedisCommand :=
  { Name := "TTL", KeyType := .generic, KeyExtractor := ArgsAtIndices [0],
    TransformFunc := .typeSpecificBulk
      { Commands := { kv := "TTL", list := "LTTL", hash := "HTTL", set := "STTL", zset := "ZTTL" },
        Aggregation := .sum },
    SyntaxStr := "TTL key" }

/-- Catalog entry for `AUTH`. -/
def RedisCommandAUTH : RedisCommand :=
  { Name := "AUTH", KeyType := .generic, KeyExtractor := ArgsAtIndices [],
    TransformFunc := .noneTransform,
    SyntaxStr := "AUTH password" }

/-- Catalog entry for `ECHO`. -/
def RedisCommandECHO : RedisCommand :=
  { Name := "ECHO", KeyType := .generic, KeyExtractor := ArgsAtIndices [],
    TransformFunc := .noneTransform,
    SyntaxStr := "ECHO message" }

/-- Catalog entry for `PING`. -/
def RedisCommandPING : RedisCommand :=
  { Name := "PING", KeyType := .generic, KeyExtractor := ArgsAtIndices [],
    TransformFunc := .ping,
    SyntaxStr := "PING [message]" }

/-- Catalog entry for `SELECT`. -/
def RedisCommandSELECT : RedisCommand :=
  { Name := "SELECT", KeyType := .generic, KeyExtractor := ArgsAtIndices [],
    TransformFunc := .noneTransform,
    SyntaxStr := "SELECT index" }

/-- Catalog entry for `EVAL`. -/
def RedisCommandEVAL : RedisCommand :=
  { Name := "EVAL", KeyType := .generic, KeyExtractor := ArgsAtIndices [],
    TransformFunc := .noneTransform,
    SyntaxStr := "EVAL script numkeys key [key ...] arg [arg ...]" }

/-- Catalog entry for `EVALSHA`. -/
def RedisCommandEVALSHA : RedisCommand :=
  { Name := "EVALSHA", KeyType := .generic, KeyExtractor := ArgsAtIndices [],
    TransformFunc := .noneTransform,
    SyntaxStr := "EVALSHA sha1 numkeys key [key ...] arg [arg ...]" }

/-- Catalog entry for `SCRIPT`. -/
def RedisCommandSCRIPT : RedisCommand :=
  { Name := "SCRIPT", KeyType := .generic, KeyExtractor := ArgsAtIndices [],
    TransformFunc := .script,
    SyntaxStr := "SCRIPT subcommand [arg ...]" }

/-- Catalog entry for `UNSAFE`. -/
def RedisCommandUNSAFE : RedisCommand :=
  { Name := "UNSAFE", KeyType := .generic, KeyExtractor := ArgsAtIndices [],
    TransformFunc := .unsafeCommand,
    SyntaxStr := "UNSAFE subcommand [arg ...]" }

/-- `RedisCommandFromName`: look the command up by the ASCII-uppercased
name; unknown names yield `ErrUnknownRedisCommandName`. -/
def RedisCommandFromName (name : String) : Except RErr RedisCommand :=
  match rewledisArgs.toUpperAscii name with
  | "APPEND" => .ok RedisCommandAPPEND
  | "BITCOUNT" => .ok RedisCommandBITCOUNT
  | "BITOP" => .ok RedisCommandBITOP
  | "BITPOS" => .ok RedisCommandBITPOS
  | "DECR" => .ok RedisCommandDECR
  | "DECRBY" => .ok RedisCommandDECRBY
  | "GET" => .ok RedisCommandGET
  | "GETBIT" => .ok RedisCommandGETBIT
  | "GETRANGE" => .ok RedisCommandGETRANGE
  | "GETSET" => .ok RedisCommandGETSET
  | "INCR" => .ok RedisCommandINCR
  | "INCRBY" => .ok RedisCommandINCRBY
  | "MGET" => .ok RedisCommandMGET
  | "MSET" => .ok RedisCommandMSET
  | "SET" => .ok RedisCommandSET
  | "SETBIT" => .ok RedisCommandSETBIT
  | "SETEX" => .ok RedisCommandSETEX
  | "SETNX" => .ok RedisCommandSETNX
  | "SETRANGE" => .ok RedisCommandSETRANGE
  | "STRLEN" => .ok RedisCommandSTRLEN
  | "HDEL" => .ok RedisCommandHDEL
  | "HEXISTS" => .ok RedisCommandHEXISTS
  | "HGET" => .ok RedisCommandHGET
  | "HGETALL" => .ok RedisCommandHGETALL
  | "HINCRBY" => .ok RedisCommandHINCRBY
  | "HKEYS" => .ok RedisCommandHKEYS
  | "HLEN" => .ok RedisCommandHLEN
  | "HMGET" => .ok RedisCommandHMGET
  | "HMSET" => .ok RedisCommandHMSET
  | "HSET" => .ok RedisCommandHSET
  | "HVALS" => .ok RedisCommandHVALS
  | "HSCAN" => .ok RedisCommandHSCAN
  | "BLPOP" => .ok RedisCommandBLPOP
  | "BRPOP" => .ok RedisCommandBRPOP
  | "BRPOPLPUSH" => .ok RedisCommandBRPOPLPUSH
  | "LINDEX" => .ok RedisCommandLINDEX
  | "LLEN" => .ok RedisCommandLLEN
  | "LPOP" => .ok RedisCommandLPOP
  | "LPUSH" => .ok RedisCommandLPUSH
  | "LRANGE" => .ok RedisCommandLRANGE
  | "LTRIM" => .ok RedisCommandLTRIM
  | "RPOP" => .ok RedisCommandRPOP
  | "RPOPLPUSH" => .ok RedisCommandRPOPLPUSH
  | "RPUSH" => .ok RedisCommandRPUSH
  | "SADD" => .ok RedisCommandSADD
  | "SCARD" => .ok RedisCommandSCARD
  | "SDIFF" => .ok RedisCommandSDIFF
  | "SDIFFSTORE" => .ok RedisCommandSDIFFSTORE
  | "SINTER" => .ok RedisCommandSINTER
  | "SINTERSTORE" => .ok RedisCommandSINTERSTORE
  | "SISMEMBER" => .ok RedisCommandSISMEMBER
  | "SMEMBERS" => .ok RedisCommandSMEMBERS
  | "SREM" => .ok RedisCommandSREM
  | "SSCAN" => .ok RedisCommandSSCAN
  | "SUNION" => .ok RedisCommandSUNION
  | "SUNIONSTORE" => .ok RedisCommandSUNIONSTORE
  | "ZADD" => .ok RedisCommandZADD
  | "ZCARD" => .ok RedisCommandZCARD
  | "ZCOUNT" => .ok RedisCommandZCOUNT
  | "ZINCRBY" => .ok RedisCommandZINCRBY
  | "ZINTERSTORE" => .ok RedisCommandZINTERSTORE
  | "ZLEXCOUNT" => .ok RedisCommandZLEXCOUNT
  | "ZRANGE" => .ok RedisCommandZRANGE
  | "ZRANGEBYLEX" => .ok RedisCommandZRANGEBYLEX
  | "ZRANGEBYSCORE" => .ok RedisCommandZRANGEBYSCORE
  | "ZRANK" => .ok RedisCommandZRANK
  | "ZREM" => .ok RedisCommandZREM
  | "ZREMRANGEBYLEX" => .ok RedisCommandZREMRANGEBYLEX
  | "ZREMRANGEBYRANK" => .ok RedisCommandZREMRANGEBYRANK
  | "ZREMRANGEBYSCORE" => .ok RedisCommandZREMRANGEBYSCORE
  | "ZREVRANGE" => .ok RedisCommandZREVRANGE
  | "ZREVRANGEBYSCORE" => .ok RedisCommandZREVRANGEBYSCORE
  | "ZREVRANK" => .ok RedisCommandZREVRANK
  | "ZSCAN" => .ok RedisCommandZSCAN
  | "ZSCORE" => .ok RedisCommandZSCORE
  | "ZUNIONSTORE" => .ok RedisCommandZUNIONSTORE
  | "DEL" => .ok RedisCommandDEL
  | "DUMP" => .ok RedisCommandDUMP
  | "EXISTS" => .ok RedisCommandEXISTS
  | "EXPIRE" => .ok RedisCommandEXPIRE
  | "EXPIREAT" => .ok RedisCommandEXPIREAT
  | "PERSIST" => .ok RedisCommandPERSIST
  | "RESTORE" => .ok RedisCommandRESTORE
  | "SORT" => .ok RedisCommandSORT
  | "TTL" => .ok RedisCommandTTL
  | "AUTH" => .ok RedisCommandAUTH
  | "ECHO" => .ok RedisCommandECHO
  | "PING" => .ok RedisCommandPING
  | "SELECT" => .ok RedisCommandSELECT
  | "EVAL" => .ok RedisCommandEVAL
  | "EVALSHA" => .ok RedisCommandEVALSHA
  | "SCRIPT" => .ok RedisCommandSCRIPT
  | "UNSAFE" => .ok RedisCommandUNSAFE
  | _ => .error .unknownRedisCommandName

/-- Dispatch a transform tag to the transform it names (the indirect call
`command.TransformFunc(r, command, args)` of the source). -/
def applyTransform : TransformKind → Rewriter → RedisCommand → List Arg →
    Except RErr (Rewriter × SendLedisFunc)
  | .noneTransform => NoneTransformer
  | .typeSpecificBulk config => TypeSpecificBulkTransformer config
  | .set => SetCommandTransformer
  | .zadd => ZaddCommandTransformer
  | .restore => RestoreCommandTransformer
  | .ping => PingCommandTransformer
  | .script => ScriptCommandTransformer
  | .unsafeCommand => UnsafeCommandTransformer

/-- `Rewriter.Rewrite`. -/
def Rewrite (rw : Rewriter) (commandName : String) (args : List Arg) :
    Except RErr (Rewriter × SendLedisFunc) :=
  match RedisCommandFromName commandName with
  | .error e => .error e
  | .ok command => applyTransform command.TransformFunc rw command args

/-- Modelled from the spec: the `SlotDeque` type used by `LedisConn` is not
among the sources (only its uses are); the spec describes it as a FIFO
deque of pending Slots.  It is a `List Slot` here: `PushBack` appends at
the tail (`++ [slot]`), `PopFront` takes the head, `Clear` empties it,
`Len`/`At` are length and indexing. -/
abbrev SlotDeque : Type := List Slot

/-- `LedisConn` from `ledisconn.go`: the rewriting wrapper around a
connection to the backend.  `conn = none` is the nil (closed) underlying
connection. -/
structure LedisConn where
  slots : SlotDeque
  rewriter : Rewriter
  err : Option RErr := Option.none
  conn : Option WireConn

/-- `LedisConn.fatal`: record the first fatal error, and close the
connection (which also clears the slot deque) if it is still open.  Returns
the updated connection and the error (which `fatal` passes through). -/
def LedisConn.fatal (l : LedisConn) (err : RErr) : LedisConn × RErr :=
  let l := if l.err = Option.none then { l with err := Option.some err } else l
  match l.conn with
  | Option.some _ => ({ l with conn := Option.none, slots := [] }, err)
  | Option.none => (l, err)

/-- `LedisConn.Close`. -/
def LedisConn.Close (l : LedisConn) : LedisConn × Option RErr :=
  match l.conn with
  | Option.none => (l, Option.some .connClosed)
  | Option.some _ => ({ l with conn := Option.none, slots := [] }, Option.none)

/-- `LedisConn.Err`: the stored fatal error, else `ErrConnClosed` for a nil
underlying connection, else the underlying connection's own error (always
absent in this model). -/
def LedisConn.Err (l : LedisConn) : Option RErr :=
  match l.err with
  | Option.some e => Option.some e
  | Option.none =>
      match l.conn with
      | Option.none => Option.some .connClosed
      | Option.some _ => Option.none

/-- `LedisConn.rewriteAndSend`: look the command up and run its transform,
then invoke the returned send-plan against the wire connection. -/
def LedisConn.rewriteAndSend (l : LedisConn) (w : WireConn) (commandName : String)
    (args : List Arg) : Except RErr (Slot × Rewriter × WireConn) :=
  match Rewrite l.rewriter commandName args with
  | .error e => .error e
  | .ok (rw, sendLedisFunc) =>
      match sendLedisFunc w with
      | .error e => .error e
      | .ok (w', slot) => .ok (slot, rw, w')

/-- `LedisConn.Send`: rewrite the command, write the backend commands to the
output buffer and push the resulting slot; every error is fatal. -/
def LedisConn.Send (l : LedisConn) (commandName : String) (args : List Arg) :
    LedisConn × Option RErr :=
  match l.conn with
  | Option.none => (l, Option.some .connClosed)
  | Option.some w =>
      match l.rewriteAndSend w commandName args with
      | .error e =>
          let r := l.fatal e
          (r.1, Option.some r.2)
      | .ok (slot, rw, w') =>
          ({ l with conn := Option.some w', rewriter := rw, slots := l.slots ++ [slot] },
           Option.none)

/-- `LedisConn.Flush` (the underlying buffered flush never fails in this
model, so the fatal branch is dead). -/
def LedisConn.Flush (l : LedisConn) : LedisConn × Option RErr :=
  match l.conn with
  | Option.none => (l, Option.some .connClosed)
  | Option.some _ => (l, Option.none)

/-- `LedisConn.Receive`: pop the head slot, read exactly
`slot.RepliesCount` raw replies and reduce them; read and reduction errors
are fatal.  `PopFront` on an empty deque is the modelled panic. -/
def LedisConn.Receive (l : LedisConn) : LedisConn × Except RErr Reply :=
  match l.conn with
  | Option.none => (l, .error .connClosed)
  | Option.some w =>
      match l.slots with
      | [] => (l, .error .panicked)
      | slot :: rest =>
          match w.receiveN slot.RepliesCount with
          | .error e =>
              let r := LedisConn.fatal { l with slots := rest } e
              (r.1, .error r.2)
          | .ok (replies, w') =>
              match slot.ProcessFunc replies with
              | .error e =>
                  let r := LedisConn.fatal { l with slots := rest, conn := Option.some w' } e
                  (r.1, .error r.2)
              | .ok reply =>
                  ({ l with slots := rest, conn := Option.some w' }, .ok reply)

/-- `LedisConn.ReceiveWithTimeout`: as `Receive` after checking that the
underlying connection supports deadlined reads (the timeout value itself
is real-time behaviour outside the model). -/
def LedisConn.ReceiveWithTimeout (l : LedisConn) : LedisConn × Except RErr Reply :=
  match l.conn with
  | Option.none => (l, .error .connClosed)
  | Option.some w =>
      if ¬ w.supportsTimeout then (l, .error .timeoutNotSupported)
      else l.Receive

/-- `LedisConn.consumeSlots` (reply-draining part): read and discard
`RepliesCount` raw replies for every queued slot, in order.  The source
then clears the deque; the callers below do that on success. -/
def LedisConn.consumeSlots (slots : List Slot) (w : WireConn) : Except RErr WireConn :=
  match slots with
  | [] => .ok w
  | slot :: rest =>
      match w.receiveN slot.RepliesCount with
      | .error e => .error e
      | .ok (_, w') => LedisConn.consumeSlots rest w'

/-- The shared body of `LedisConn.Do` and `LedisConn.DoWithTimeout` (the
two Go functions are textual copies differing only in using the deadlined
receive, which this model does not distinguish): optionally rewrite-and-send
the command, flush, drain all queued slots, clear the deque, then read and
reduce the just-issued slot's replies.  With an empty command name the
reply is Go's `nil, nil`. -/
def LedisConn.doCore (l : LedisConn) (w : WireConn) (commandName : String) (args : List Arg) :
    LedisConn × Except RErr Reply :=
  match (if commandName.length > 0
         then (l.rewriteAndSend w commandName args).map
           (fun r => (Option.some r.1, r.2.1, r.2.2))
         else .ok (Option.none, l.rewriter, w) :
         Except RErr (Option Slot × Rewriter × WireConn)) with
  | .error e =>
      let r := l.fatal e
      (r.1, .error r.2)
  | .ok (slotOpt, rw, w1) =>
      match LedisConn.consumeSlots l.slots w1 with
      | .error e =>
          let r := LedisConn.fatal { l with rewriter := rw } e
          (r.1, .error r.2)
      | .ok w2 =>
          let l2 : LedisConn := { l with rewriter := rw, slots := [], conn := Option.some w2 }
          match slotOpt with
          | Option.some slot =>
              match w2.receiveN slot.RepliesCount with
              | .error e =>
                  let r := l2.fatal e
                  (r.1, .error r.2)
              | .ok (replies, w3) =>
                  match slot.ProcessFunc replies with
                  | .error e =>
                      let r := LedisConn.fatal { l2 with conn := Option.some w3 } e
                      (r.1, .error r.2)
                  | .ok reply => ({ l2 with conn := Option.some w3 }, .ok reply)
          | Option.none => (l2, .ok .nil)

/-- `LedisConn.Do`. -/
def LedisConn.Do (l : LedisConn) (commandName : String) (args : List Arg) :
    LedisConn × Except RErr Reply :=
  match l.conn with
  | Option.none => (l, .error .connClosed)
  | Option.some w => l.doCore w commandName args

/-- `LedisConn.DoWithTimeout`. -/
def LedisConn.DoWithTimeout (l : LedisConn) (commandName : String) (args : List Arg) :
    LedisConn × Except RErr Reply :=
  match l.conn with
  | Option.none => (l, .error .connClosed)
  | Option.some w =>
      if ¬ w.supportsTimeout then (l, .error .timeoutNotSupported)
      else l.doCore w commandName args

/-! Shared concrete fixtures used by witnesses and counterexamples. -/

/-- A rewriter over an empty cache whose probes all fail and whose waits are
cancelled (commands that never reach the resolver do not observe it). -/
def demoRewriter : Rewriter :=
  { cache := {}, probe := fun _ => Option.none, wait := fun _ => .cancelled }

/-- A rewriter over an empty cache against a backend where every key is a
hash (`HKEYEXISTS` probes reply 1, all other probes reply 0). -/
def hashRw : Rewriter :=
  { cache := {}, probe := fun t => Option.some (fun _ => t == LedisType.hash),
    wait := fun _ => .cancelled }

/-- A fresh wire connection. -/
def emptyWire : WireConn := { sent := [], replies := [], supportsTimeout := true }

/-- Run a transform result against a wire connection and report the emitted
command buffer and the slot's reply count. -/
def runPlanSent (r : Except RErr (Rewriter × SendLedisFunc)) (w : WireConn) :
    Except RErr (List Command × Nat) :=
  match r with
  | .error e => .error e
  | .ok (_, plan) =>
      match plan w with
      | .error e => .error e
      | .ok (w', slot) => .ok (w'.sent, slot.RepliesCount)

/-- A one-reply identity slot (as produced by the identity transform). -/
def demoSlotA : Slot := { RepliesCount := 1, ProcessFunc := firstReply }

/-- An open rewriting connection with one pending slot. -/
def demoConnQueued : LedisConn :=
  { slots := [demoSlotA], rewriter := demoRewriter, err := Option.none,
    conn := Option.some emptyWire }

/-- A wire connection with two raw replies queued by the backend: one owed
to the pending slot, one to the next command. -/
def demoDoWire : WireConn :=
  { sent := [], replies := [.int 5, .str "x"], supportsTimeout := true }

/-- An open rewriting connection with one pending one-reply slot and the
matching raw replies on the wire. -/
def demoDoConn : LedisConn :=
  { slots := [demoSlotA], rewriter := demoRewriter, err := Option.none,
    conn := Option.some demoDoWire }

/-- A backend where key `"b"` is a KV string and key `"a"` is a list: the
KV probing round hits `"b"` only, the list round hits `"a"` only. -/
def probeAB : ProbeOracle := fun t =>
  Option.some (fun k =>
    (t == LedisType.kv && k == "b") || (t == LedisType.list && k == "a"))

/-!  C3 — SET modifier combinations.  -/

/-- C3: for every SET invocation whose modifier tail parses, (i) `XX ∧ NX`
makes the transform fail with `ErrInvalidArgumentCombination`; (ii) `EX ∧ PX`
does the same; (iii) `XX` without `NX` (and not both expirations) fails with
`ErrNoEmulationPossible`.  Each case returns an error, so no SendPlan is
produced — and wire I/O happens only inside SendPlans, so nothing is
written to the wire. -/
theorem setTransformer_invalid_combinations (rw : Rewriter) (cmd : RedisCommand)
    (args : List Arg) (info : setCommandInfo) (h : parseSetCommand args = .ok info) :
    (info.XXSet ∧ info.NXSet →
      SetCommandTransformer rw cmd args = .error .invalidArgumentCombination) ∧
    (info.EXSet ∧ info.PXSet →
      SetCommandTransformer rw cmd args = .error .invalidArgumentCombination) ∧
    (info.XXSet → ¬ info.NXSet → ¬ (info.EXSet ∧ info.PXSet) →
      SetCommandTransformer rw cmd args = .error .noEmulationPossible) := by
  unfold SetCommandTransformer
  rw [h]
  refine ⟨fun hxn => ?_, fun hep => ?_, fun hx hn hep => ?_⟩
  · simp [hxn.1, hxn.2]
  · by_cases hxn : info.XXSet ∧ info.NXSet <;> simp [hxn, hep.1, hep.2]
  · have hnx : ¬ (info.XXSet ∧ info.NXSet) := fun hc => hn hc.2
    simp only [if_neg hnx, if_neg hep]
    simp [hx]

/-- Witness for C3 at `SET foo bar XX NX`. -/
theorem setTransformer_invalid_combinations_witness :
    parseSetCommand [Arg.str "foo", Arg.str "bar", Arg.str "XX", Arg.str "NX"] =
      .ok { NXSet := true, XXSet := true } ∧
    SetCommandTransformer demoRewriter RedisCommandSET
      [Arg.str "foo", Arg.str "bar", Arg.str "XX", Arg.str "NX"] =
      .error .invalidArgumentCombination :=
  ⟨rfl,
   (setTransformer_invalid_combinations demoRewriter RedisCommandSET
      [Arg.str "foo", Arg.str "bar", Arg.str "XX", Arg.str "NX"]
      { NXSet := true, XXSet := true } rfl).1 ⟨rfl, rfl⟩⟩

/-!  C4 — SET with PX: the emitted SETEX seconds.  -/

/-- Int64 wrapping is the identity on in-range values. -/
theorem int64Wrap_eq_self (n : Int) (h1 : -(2 ^ 63) ≤ n) (h2 : n < 2 ^ 63) :
    int64Wrap n = n := by
  unfold int64Wrap
  rw [Int.emod_eq_of_lt (by omega) (by omega)]
  omega

/-- For non-negative `p`, the Go expression `(p + 999) / 1000` computes the
ceiling of `p / 1000`. -/
theorem tdiv_add_999_eq_ceil (p : Int) (hp : 0 ≤ p) :
    (p + 999).tdiv 1000 = ⌈(p : ℚ) / 1000⌉ := by
  rw [Int.tdiv_eq_ediv (by omega) (by norm_num)]
  symm
  rw [Int.ceil_eq_iff]
  have hdm := Int.ediv_add_emod (p + 999) 1000
  have hr0 : 0 ≤ (p + 999) % 1000 := Int.emod_nonneg _ (by norm_num)
  have hr1 : (p + 999) % 1000 < 1000 := Int.emod_lt_of_pos _ (by norm_num)
  constructor
  · rw [show (((p + 999) / 1000 : Int) : ℚ) - 1 = (((p + 999) / 1000 - 1 : Int) : ℚ) by push_cast; ring]
    rw [lt_div_iff₀ (by norm_num : (0 : ℚ) < 1000)]
    have h : ((p + 999) / 1000 - 1) * 1000 < p := by omega
    exact_mod_cast h
  · rw [div_le_iff₀ (by norm_num : (0 : ℚ) < 1000)]
    have h : p ≤ (p + 999) / 1000 * 1000 := by omega
    exact_mod_cast h

/-- C4 counterexample: at `SET k v PX -1000` the transform emits
`SETEX k 0 v` — a seconds value of `0` — while the ceiling of
`-1000 / 1000` is `-1`: the claimed equality fails at this input (the Go
expression truncates `(p+999)/1000` toward zero, which differs from the
ceiling for negative milliseconds). -/
theorem setPxCeiling_counterexample :
    runPlanSent (SetCommandTransformer demoRewriter RedisCommandSET
        [Arg.str "k", Arg.str "v", Arg.str "PX", Arg.int (-1000)]) emptyWire =
      .ok ([⟨"SETEX", [Arg.str "k", Arg.int 0, Arg.str "v"]⟩], 1) ∧
    ⌈((-1000 : Int) : ℚ) / 1000⌉ = -1 ∧ (0 : Int) ≠ -1 := by
  refine ⟨rfl, ?_, by decide⟩
  have h : ((-1000 : Int) : ℚ) / 1000 = ((-1 : Int) : ℚ) := by norm_num
  rw [h, Int.ceil_intCast]

/-- C4 amended: for every SET whose tail parses with `PX` set and `NX`,
`EX`, `XX` all absent (the `XX` case returns `NoEmulationPossible`, see C3),
the plan emits exactly one command, `SETEX key seconds value`, where
`seconds` is the Go value `(PX + 999) / 1000` (int64 wrap-around addition,
division truncating toward zero); for every non-negative `PX` that does not
overflow, that value equals the claimed ceiling `⌈PX / 1000⌉`. -/
theorem setTransformer_px_emits_setex (rw : Rewriter) (cmd : RedisCommand)
    (args : List Arg) (info : setCommandInfo) (a0 a1 : Arg) (rest : List Arg)
    (h : parseSetCommand args = .ok info) (hargs : args = a0 :: a1 :: rest)
    (hpx : info.PXSet) (hnx : ¬ info.NXSet) (hex : ¬ info.EXSet) (hxx : ¬ info.XXSet) :
    (∃ plan, SetCommandTransformer rw cmd args = .ok (rw, plan) ∧
      ∀ w : WireConn, plan w =
        .ok (w.send "SETEX" [a0, Arg.int ((int64Wrap (info.PX + 999)).tdiv 1000), a1],
          { RepliesCount := 1, ProcessFunc := setProcessFunc false })) ∧
    (0 ≤ info.PX → info.PX + 999 < 2 ^ 63 →
      (int64Wrap (info.PX + 999)).tdiv 1000 = ⌈(info.PX : ℚ) / 1000⌉) := by
  constructor
  · unfold SetCommandTransformer
    rw [h]
    have hc1 : ¬ (info.XXSet ∧ info.NXSet) := fun hc => hxx hc.1
    have hc2 : ¬ (info.EXSet ∧ info.PXSet) := fun hc => hex hc.1
    simp only [if_neg hc1, if_neg hc2, if_neg hxx]
    refine ⟨_, rfl, fun w => ?_⟩
    subst hargs
    simp [hnx, hpx]
  · intro h0 hov
    rw [int64Wrap_eq_self _ (by omega) hov]
    exact tdiv_add_999_eq_ceil _ h0

/-- Witness for the amended C4 at `SET k v px 2500` (seconds 3). -/
theorem setTransformer_px_emits_setex_witness :
    ((∃ plan, SetCommandTransformer demoRewriter RedisCommandSET
        [Arg.str "k", Arg.str "v", Arg.str "px", Arg.int 2500] = .ok (demoRewriter, plan) ∧
      ∀ w : WireConn, plan w =
        .ok (w.send "SETEX" [Arg.str "k", Arg.int ((int64Wrap ((2500 : Int) + 999)).tdiv 1000),
            Arg.str "v"],
          { RepliesCount := 1, ProcessFunc := setProcessFunc false })) ∧
    (0 ≤ (2500 : Int) → (2500 : Int) + 999 < 2 ^ 63 →
      (int64Wrap ((2500 : Int) + 999)).tdiv 1000 = ⌈((2500 : Int) : ℚ) / 1000⌉)) ∧
    (int64Wrap ((2500 : Int) + 999)).tdiv 1000 = 3 :=
  ⟨setTransformer_px_emits_setex demoRewriter RedisCommandSET
      [Arg.str "k", Arg.str "v", Arg.str "px", Arg.int 2500]
      { PXSet := true, PX := 2500 } (Arg.str "k") (Arg.str "v") [Arg.str "px", Arg.int 2500]
      rfl rfl rfl (by decide) (by decide) (by decide),
   by decide⟩

/-!  C5 — ZADD emission.  -/

/-- C5, evaluated at the failing input: `ZADD k 1 a 2 b` (integer scores,
no flags, balanced tail) emits a `ZADD` wire command with TWO arguments —
the key and the whole score/member tail as a single slice value (the source
passes `args[commandInfo.NumFlags+1:]` to `Send` without spreading it) —
instead of the claimed separate arguments.  The INCR behaviours hold as
claimed: one pair becomes `ZINCRBY key score member`, a three-argument tail
is `ErrInvalidSyntax`.  (With string-typed scores, e.g. `ZADD k "1" "a"`,
the transform already fails at parse time because the first tail argument
is counted as a flag.) -/
theorem zaddTransformer_slice_argument :
    runPlanSent (ZaddCommandTransformer demoRewriter RedisCommandZADD
        [Arg.str "k", Arg.int 1, Arg.str "a", Arg.int 2, Arg.str "b"]) emptyWire =
      .ok ([⟨"ZADD", [Arg.str "k",
        Arg.list [Arg.int 1, Arg.str "a", Arg.int 2, Arg.str "b"]]⟩], 1) ∧
    (⟨"ZADD", [Arg.str "k", Arg.list [Arg.int 1, Arg.str "a", Arg.int 2, Arg.str "b"]]⟩ :
        Command) ≠
      ⟨"ZADD", [Arg.str "k", Arg.int 1, Arg.str "a", Arg.int 2, Arg.str "b"]⟩ ∧
    runPlanSent (ZaddCommandTransformer demoRewriter RedisCommandZADD
        [Arg.str "k", Arg.str "INCR", Arg.int 1, Arg.str "a"]) emptyWire =
      .ok ([⟨"ZINCRBY", [Arg.str "k", Arg.int 1, Arg.str "a"]⟩], 1) ∧
    ZaddCommandTransformer demoRewriter RedisCommandZADD
        [Arg.str "k", Arg.str "INCR", Arg.int 1, Arg.str "a", Arg.str "b"] =
      .error .invalidSyn ∧
    ZaddCommandTransformer demoRewriter RedisCommandZADD
        [Arg.str "k", Arg.str "1", Arg.str "a", Arg.str "2", Arg.str "b"] =
      .error .invalidSyn := by
  refine ⟨rfl, by simp, rfl, rfl, rfl⟩

/-!  C6 — EXISTS over two hash keys.  -/

/-- C6, evaluated at the failing input: rewriting `EXISTS x y` against a
backend where both keys are hashes emits only `HKEYEXISTS x` with one
expected reply — the catalog entry's key extractor is `ArgsAtIndices(0)`,
so the second key never reaches the resolver or the wire — not the claimed
two commands.  The claimed reduction itself is as stated: the sum
aggregator folds `[1, 0]` to `1`. -/
theorem existsTransformer_single_key :
    runPlanSent (Rewrite hashRw "EXISTS" [Arg.str "x", Arg.str "y"]) emptyWire =
      .ok ([⟨"HKEYEXISTS", [Arg.str "x"]⟩], 1) ∧
    [(⟨"HKEYEXISTS", [Arg.str "x"]⟩ : Command)] ≠
      [⟨"HKEYEXISTS", [Arg.str "x"]⟩, ⟨"HKEYEXISTS", [Arg.str "y"]⟩] ∧
    Aggregator .sum [Reply.int 1, Reply.int 0] = .ok (.int 1) := by
  refine ⟨rfl, by simp, rfl⟩

/-!  C7 — reply count of the type-specific bulk transform.  -/

/-- The six (per-type command, key partition) bins of a configuration and a
partition, in the emission order None, KV, List, Hash, Set, ZSet. -/
def allBins (config : TypeSpecificBulkTransformerConfig) (agg : KeyTypeAggregation) :
    List (String × List String) :=
  [(config.Commands.none, agg.none), (config.Commands.kv, agg.kv),
   (config.Commands.list, agg.list), (config.Commands.hash, agg.hash),
   (config.Commands.set, agg.set), (config.Commands.zset, agg.zset)]

/-- The bins that actually emit: non-empty per-type command name AND
non-empty key partition. -/
def activeBins (config : TypeSpecificBulkTransformerConfig) (agg : KeyTypeAggregation) :
    List (String × List String) :=
  (allBins config agg).filter (fun b => decide (0 < b.1.length ∧ 0 < b.2.length))

/-- The debulk loop of `sendBulk` sends one command per key. -/
theorem sendBulk_debulk_count (command : String) (appendArgs : List Arg)
    (keys : List String) (conn : WireConn) (n : Nat) :
    (keys.foldl (fun wn key => (wn.1.send command ([.str key] ++ appendArgs), wn.2 + 1))
      (conn, n)).2 = n + keys.length := by
  induction keys generalizing conn n with
  | nil => simp
  | cons k ks ih =>
      simp only [List.foldl_cons]
      rw [ih]
      simp
      omega

/-- `sendBulk` emits `keys.length` commands when debulking, one otherwise,
and nothing when the bin is disabled or empty. -/
theorem sendBulk_count (command : String) (keys : List String) (conn : WireConn)
    (debulk : Bool) (appendArgs : List Arg) :
    (sendBulk command keys conn debulk appendArgs).2 =
      if 0 < command.length ∧ 0 < keys.length then
        (if debulk then keys.length else 1)
      else 0 := by
  unfold sendBulk
  split_ifs with h hd
  · have hc := sendBulk_debulk_count command appendArgs keys conn 0
    simp only [List.cons_append, List.nil_append] at hc ⊢
    rw [hc]
    simp
  · simp
  · rfl

/-- Summing the per-bin counts over any bin list gives the claimed formula:
the total number of keys in active bins when debulking, otherwise the
number of active bins. -/
theorem binCounts_sum (debulk : Bool) (bins : List (String × List String)) :
    (bins.map (fun b => if 0 < b.1.length ∧ 0 < b.2.length then
        (if debulk then b.2.length else 1) else 0)).sum =
      if debulk then
        ((bins.filter (fun b => decide (0 < b.1.length ∧ 0 < b.2.length))).map
          (fun b => b.2.length)).sum
      else
        (bins.filter (fun b => decide (0 < b.1.length ∧ 0 < b.2.length))).length := by
  induction bins with
  | nil => cases debulk <;> simp
  | cons b bs ih =>
      by_cases hb : 0 < b.1.length ∧ 0 < b.2.length <;>
        cases debulk <;>
        simp_all [List.filter_cons, Nat.add_comm]

/-- C7: the Slot produced by the type-specific bulk transform's send-plan
has `RepliesCount` equal to, when `debulk` is false, the number of bins
with a non-empty key partition and a non-empty per-type command name, and,
when `debulk` is true, the total number of keys across such bins. -/
theorem typeSpecificPlan_repliesCount (config : TypeSpecificBulkTransformerConfig)
    (agg : KeyTypeAggregation) (appendArgs : List Arg) (w : WireConn) :
    typeSpecificPlan config agg appendArgs w =
      .ok ((sendBulkForAllTypes config agg w appendArgs).1,
        { RepliesCount :=
            if config.Debulk then
              ((activeBins config agg).map (fun b => b.2.length)).sum
            else (activeBins config agg).length,
          ProcessFunc := Aggregator config.Aggregation }) := by
  unfold typeSpecificPlan
  have hcount : (sendBulkForAllTypes config agg w appendArgs).2 =
      if config.Debulk then
        ((activeBins config agg).map (fun b => b.2.length)).sum
      else (activeBins config agg).length := by
    have hsum := binCounts_sum config.Debulk (allBins config agg)
    simp only [allBins, List.map_cons, List.map_nil, List.sum_cons, List.sum_nil] at hsum
    unfold sendBulkForAllTypes
    simp only [sendBulk_count]
    rw [activeBins]
    simp only [allBins]
    cases hD : config.Debulk
    · simp only [hD] at hsum ⊢
      simp only [Bool.false_eq_true, if_false] at hsum ⊢
      omega
    · simp only [hD, if_true] at hsum ⊢
      omega
  simp only [hcount]

/-!  C2 — Send with an unknown command name.  -/

/-- C2 counterexample: on an open connection with one pending slot, sending
an unknown command returns `ErrUnknownRedisCommandName` but also clears the
pending-slot queue (1 slot → 0) and makes the connection terminal — the
very next operation fails with `ErrConnClosed`.  The claim's "queue
unchanged" and "not terminal" parts are false at this input. -/
theorem sendUnknown_counterexample :
    (demoConnQueued.Send "NOSUCHCMD" []).2 = Option.some RErr.unknownRedisCommandName ∧
    demoConnQueued.slots.length = 1 ∧
    (demoConnQueued.Send "NOSUCHCMD" []).1.slots.length = 0 ∧
    ((demoConnQueued.Send "NOSUCHCMD" []).1.Send "GET" [Arg.str "k"]).2 =
      Option.some RErr.connClosed := by
  refine ⟨rfl, rfl, rfl, rfl⟩

/-- C2 amended: for every open connection and every command name missing
from the catalog, `Send` returns `ErrUnknownRedisCommandName`, stores it as
the connection's fatal error (unless one is already stored), closes the
underlying connection and clears the pending-slot queue; subsequent
operations fail. -/
theorem sendUnknown_is_fatal (l : LedisConn) (w : WireConn) (name : String)
    (args : List Arg) (hconn : l.conn = Option.some w)
    (hname : RedisCommandFromName name = .error .unknownRedisCommandName) :
    (l.Send name args).2 = Option.some RErr.unknownRedisCommandName ∧
    (l.Send name args).1.err =
      (if l.err = Option.none then Option.some RErr.unknownRedisCommandName else l.err) ∧
    (l.Send name args).1.conn = Option.none ∧
    (l.Send name args).1.slots = [] := by
  unfold LedisConn.Send LedisConn.rewriteAndSend Rewrite LedisConn.fatal
  rw [hconn, hname]
  split_ifs with he <;> simp [he, hconn]

/-- Witness for the amended C2 at the queued demo connection. -/
theorem sendUnknown_is_fatal_witness :
    (demoConnQueued.Send "NOSUCHCMD" []).2 = Option.some RErr.unknownRedisCommandName ∧
    (demoConnQueued.Send "NOSUCHCMD" []).1.err =
      (if demoConnQueued.err = Option.none
       then Option.some RErr.unknownRedisCommandName else demoConnQueued.err) ∧
    (demoConnQueued.Send "NOSUCHCMD" []).1.conn = Option.none ∧
    (demoConnQueued.Send "NOSUCHCMD" []).1.slots = [] :=
  sendUnknown_is_fatal demoConnQueued emptyWire "NOSUCHCMD" [] rfl rfl

/-!  C9 — behaviour after a fatal error.  -/

/-- A terminal connection storing a fatal error. -/
def closedConn : LedisConn :=
  { slots := [], rewriter := demoRewriter, err := Option.some RErr.connErr,
    conn := Option.none }

/-- C9 counterexample: after a fatal error (here: an unknown command name),
the stored error is `ErrUnknownRedisCommandName`, but the next `Send`
returns `ErrConnClosed`, not the stored error — the claim's "the error it
returns is the stored first fatal error" is false at this input (the
stored error is only available through `Err()`). -/
theorem fatalStoredError_counterexample :
    ((demoConnQueued.Send "NOSUCHCMD2" []).1).err =
      Option.some RErr.unknownRedisCommandName ∧
    (((demoConnQueued.Send "NOSUCHCMD2" []).1).Send "GET" [Arg.str "k"]).2 =
      Option.some RErr.connClosed ∧
    (((demoConnQueued.Send "NOSUCHCMD2" []).1).Do "GET" [Arg.str "k"]).2 =
      .error RErr.connClosed ∧
    RErr.connClosed ≠ RErr.unknownRedisCommandName := by
  refine ⟨rfl, rfl, rfl, by decide⟩

/-- C9 amended: `fatal` closes the connection and stores the first error;
on a closed connection every subsequent `Send`, `Flush`, `Receive`, `Do`
and `DoWithTimeout` fails with `ErrConnClosed`, and the stored first fatal
error is reported by `Err()`. -/
theorem fatal_makes_closed_ops_fail (l : LedisConn) (e : RErr) (l' : LedisConn) :
    ((l.fatal e).1.conn = Option.none ∧ (l.fatal e).2 = e ∧
      (l.err = Option.none → (l.fatal e).1.err = Option.some e)) ∧
    (l'.conn = Option.none →
      (∀ name args, (l'.Send name args).2 = Option.some RErr.connClosed) ∧
      (l'.Flush.2 = Option.some RErr.connClosed) ∧
      (l'.Receive.2 = .error RErr.connClosed) ∧
      (∀ name args, (l'.Do name args).2 = .error RErr.connClosed) ∧
      (∀ name args, (l'.DoWithTimeout name args).2 = .error RErr.connClosed) ∧
      (∀ e', l'.err = Option.some e' → l'.Err = Option.some e')) := by
  constructor
  · unfold LedisConn.fatal
    split_ifs with he <;> cases hc : l.conn <;> simp [he, hc]
  · intro hclosed
    refine ⟨fun name args => ?_, ?_, ?_, fun name args => ?_, fun name args => ?_,
      fun e' he' => ?_⟩
    · unfold LedisConn.Send; rw [hclosed]
    · unfold LedisConn.Flush; rw [hclosed]
    · unfold LedisConn.Receive; rw [hclosed]
    · unfold LedisConn.Do; rw [hclosed]
    · unfold LedisConn.DoWithTimeout; rw [hclosed]
    · unfold LedisConn.Err; rw [he']

/-- Witness for the amended C9. -/
theorem fatal_makes_closed_ops_fail_witness :
    (closedConn.Send "GET" [Arg.str "k"]).2 = Option.some RErr.connClosed ∧
    closedConn.Err = Option.some RErr.connErr ∧
    ((demoConnQueued.fatal RErr.connErr).1.conn = Option.none) := by
  have h := fatal_makes_closed_ops_fail demoConnQueued RErr.connErr closedConn
  exact ⟨(h.2 rfl).1 "GET" [Arg.str "k"], (h.2 rfl).2.2.2.2.2 RErr.connErr rfl, h.1.1⟩

/-!  C8 — Cache.LoadOrCreateEntry.  -/

/-- Appending a fresh binding to an assoc list without a binding for `key`
makes lookups of `key` find it. -/
theorem find?_entries_append (l : List (String × CacheEntry)) (key : String) (e : CacheEntry)
    (h : l.find? (fun kv => kv.1 == key) = Option.none) :
    (l ++ [(key, e)]).find? (fun kv => kv.1 == key) = Option.some (key, e) := by
  induction l with
  | nil => simp [List.find?]
  | cons kv l ih =>
      rw [List.find?_cons] at h
      rw [List.cons_append, List.find?_cons]
      rcases Bool.eq_false_or_eq_true (kv.1 == key) with hk | hk
      · rw [hk] at h
        exact absurd h (by simp)
      · rw [hk] at h ⊢
        exact ih h

/-- Rewriting the entry stored under `key` is visible to lookups of `key`. -/
theorem find?_entries_update (l : List (String × CacheEntry)) (key : String)
    (e' : CacheEntry) (kv0 : String × CacheEntry)
    (h : l.find? (fun kv => kv.1 == key) = Option.some kv0) :
    ((l.map (fun kv => if kv.1 == key then (kv.1, e') else kv)).find?
      (fun kv => kv.1 == key)) = Option.some (key, e') := by
  induction l with
  | nil => simp [List.find?] at h
  | cons kv l ih =>
      rw [List.find?_cons] at h
      rw [List.map_cons]
      rcases Bool.eq_false_or_eq_true (kv.1 == key) with hk | hk
      · have hkey : kv.1 = key := eq_of_beq hk
        subst hkey
        simp [List.find?_cons]
      · rw [hk] at h
        rw [if_neg (by simp [hk]), List.find?_cons, hk]
        exact ih h

/-- C8: for every well-formed cache state and key, `LoadOrCreateEntry`
returns `exists = true` — with the entry's snapshot, a zero setter, and no
mutation — exactly when an entry for the key exists in the `Exists` or
`Loading` state; otherwise (no entry, or a `Deleted`/`Error` entry) it
returns no snapshot and a valid setter, and afterwards the entry is in the
`Loading` state with a fresh, unclosed completion channel (the new channel
identifier differs from every identifier already stored or closed). -/
theorem loadOrCreateEntry_spec (c : CacheState) (key : String) (h : c.WF) :
    ((c.LoadOrCreateEntry key).2.2.2 = true ↔
      (∃ e, c.loadEntry key = Option.some e ∧
        (e.state = .found ∨ e.state = .loading))) ∧
    ((c.LoadOrCreateEntry key).2.2.2 = true →
      (c.LoadOrCreateEntry key).1 = c ∧
      (c.LoadOrCreateEntry key).2.2.1 = {} ∧
      (∃ e, c.loadEntry key = Option.some e ∧
        (c.LoadOrCreateEntry key).2.1 =
          { Key := key, state := e.state, typ := e.typ, DoneLoading := e.DoneLoading })) ∧
    ((c.LoadOrCreateEntry key).2.2.2 = false →
      (c.LoadOrCreateEntry key).2.1 = {} ∧
      (c.LoadOrCreateEntry key).2.2.1 =
        { Key := key, doneLoading := Option.some c.nextChan } ∧
      (c.LoadOrCreateEntry key).1.loadEntry key =
        Option.some { state := .loading, typ := .none,
                      DoneLoading := Option.some c.nextChan } ∧
      c.nextChan ∉ (c.LoadOrCreateEntry key).1.closed ∧
      (∀ kv ∈ c.entries, ∀ id, kv.2.DoneLoading = Option.some id → id ≠ c.nextChan)) := by
  obtain ⟨hnodup, hentries, hclosed⟩ := h
  have hfresh : ∀ kv ∈ c.entries, ∀ id, kv.2.DoneLoading = Option.some id → id ≠ c.nextChan := by
    intro kv hkv id hid
    exact Nat.ne_of_lt ((hentries kv hkv).2 id hid)
  have hnotclosed : c.nextChan ∉ c.closed := fun hin =>
    absurd (hclosed _ hin) (lt_irrefl _)
  rcases hload : c.loadEntry key with _ | entry
  · have hfind : c.entries.find? (fun kv => kv.1 == key) = Option.none := by
      unfold CacheState.loadEntry at hload
      rcases hf : c.entries.find? (fun kv => kv.1 == key) with _ | kv0
      · exact hf
      · rw [hf] at hload
        simp at hload
    have hstep : c.LoadOrCreateEntry key =
        ({ entries := c.entries ++
              [(key, { state := .loading, typ := .none,
                       DoneLoading := Option.some c.nextChan })],
           nextChan := c.nextChan + 1, closed := c.closed },
         {}, { Key := key, doneLoading := Option.some c.nextChan }, false) := by
      unfold CacheState.LoadOrCreateEntry
      rw [hload]
    rw [hstep]
    refine ⟨by simp, by simp, fun _ => ⟨rfl, rfl, ?_, hnotclosed, hfresh⟩⟩
    unfold CacheState.loadEntry
    rw [find?_entries_append _ _ _ hfind]
  · have hfind : ∃ kv0, c.entries.find? (fun kv => kv.1 == key) = Option.some kv0 ∧
        kv0.2 = entry := by
      unfold CacheState.loadEntry at hload
      rcases hf : c.entries.find? (fun kv => kv.1 == key) with _ | kv0
      · rw [hf] at hload
        simp at hload
      · rw [hf] at hload
        exact ⟨kv0, hf, by simpa using hload⟩
    obtain ⟨kv0, hkv0, hkv0e⟩ := hfind
    have hstep : c.LoadOrCreateEntry key = c.prepareEntry key entry := by
      unfold CacheState.LoadOrCreateEntry
      rw [hload]
    rw [hstep]
    unfold CacheState.prepareEntry
    split_ifs with hs
    · exact ⟨by simp [hs], fun _ => ⟨rfl, rfl, entry, rfl, rfl⟩, by simp⟩
    · have hiff : ¬ ∃ e, (Option.some entry = Option.some e) ∧
          (e.state = CacheEntryState.found ∨ e.state = CacheEntryState.loading) := by
        rintro ⟨e, he, hor⟩
        cases he
        exact hs hor
      refine ⟨iff_of_false (by simp) hiff, by simp, fun _ => ⟨rfl, rfl, ?_, hnotclosed, hfresh⟩⟩
      unfold CacheState.loadEntry CacheState.updateEntry
      rw [find?_entries_update _ _ _ _ hkv0]

/-- Witness for C8 on the empty cache: the first lookup of a key owns a
setter and leaves the entry Loading on channel 0. -/
theorem loadOrCreateEntry_spec_witness :
    (({} : CacheState).LoadOrCreateEntry "k").2.2.2 = false ∧
    (({} : CacheState).LoadOrCreateEntry "k").1.loadEntry "k" =
      Option.some { state := .loading, typ := .none, DoneLoading := Option.some 0 } := by
  have h := loadOrCreateEntry_spec {} "k" ⟨by simp, by simp, by simp⟩
  exact ⟨rfl, (h.2.2 rfl).2.2.1⟩

/-!  C10 — Do drains the pending-slot queue.  -/

/-- The number of raw replies owed by a queue of slots (invariant I1). -/
def slotsRepliesCount (slots : List Slot) : Nat :=
  (slots.map (fun s => s.RepliesCount)).sum

/-- A successful `receiveN` consumes exactly `n` replies and touches
nothing else. -/
theorem receiveN_ok (n : Nat) (w : WireConn) (rs : List Reply) (w' : WireConn)
    (h : w.receiveN n = .ok (rs, w')) :
    w'.replies = w.replies.drop n ∧ w'.sent = w.sent ∧
      w'.supportsTimeout = w.supportsTimeout ∧ rs.length = n := by
  induction n generalizing w rs w' with
  | zero =>
      unfold WireConn.receiveN at h
      cases h
      simp
  | succ n ih =>
      rcases hrep : w.replies with _ | ⟨r, rest⟩
      · unfold WireConn.receiveN WireConn.receive at h
        rw [hrep] at h
        exact absurd h (by simp)
      · have hstep : w.receiveN (n + 1) =
            (match WireConn.receiveN { w with replies := rest } n with
             | .error e => .error e
             | .ok (rs2, w2) => .ok (r :: rs2, w2)) := by
          conv_lhs => unfold WireConn.receiveN WireConn.receive
          rw [hrep]
        rw [hstep] at h
        rcases hn : WireConn.receiveN { w with replies := rest } n with e | ⟨rs2, w2⟩
        · rw [hn] at h
          exact absurd h (by simp)
        · rw [hn] at h
          rw [Except.ok.injEq, Prod.mk.injEq] at h
          obtain ⟨h1, h2⟩ := h
          subst h2
          obtain ⟨ha, hb, hc, hd⟩ := ih { w with replies := rest } rs2 w2 hn
          subst h1
          simp only [hrep, List.drop_succ_cons]
          exact ⟨ha, hb, hc, by simp [hd]⟩

/-- A successful `consumeSlots` reads and discards exactly the owed number
of raw replies, in order. -/
theorem consumeSlots_ok (slots : List Slot) (w w' : WireConn)
    (h : LedisConn.consumeSlots slots w = .ok w') :
    w'.replies = w.replies.drop (slotsRepliesCount slots) ∧ w'.sent = w.sent ∧
      w'.supportsTimeout = w.supportsTimeout := by
  induction slots generalizing w with
  | nil =>
      unfold LedisConn.consumeSlots at h
      cases h
      simp [slotsRepliesCount]
  | cons s rest ih =>
      unfold LedisConn.consumeSlots at h
      rcases hr : w.receiveN s.RepliesCount with e | ⟨rs, w1⟩
      · rw [hr] at h
        exact absurd h (by simp)
      · rw [hr] at h
        obtain ⟨ha, hb, hc, _⟩ := receiveN_ok _ _ _ _ hr
        obtain ⟨ha2, hb2, hc2⟩ := ih w1 h
        refine ⟨?_, by rw [hb2, hb], by rw [hc2, hc]⟩
        rw [ha2, ha, List.drop_drop]
        simp [slotsRepliesCount, Nat.add_comm]

/-- A send-plan that only writes to the output buffer: applying it changes
neither the reply stream nor the timeout capability of the wire
connection. -/
def PlanPreserves (plan : SendLedisFunc) : Prop :=
  ∀ w w' slot, plan w = .ok (w', slot) →
    w'.replies = w.replies ∧ w'.supportsTimeout = w.supportsTimeout

/-- `WireConn.send` leaves the reply stream and capabilities unchanged. -/
theorem send_preserves (w : WireConn) (n : String) (a : List Arg) :
    (w.send n a).replies = w.replies ∧ (w.send n a).supportsTimeout = w.supportsTimeout := by
  simp [WireConn.send]

/-- The debulk loop of `sendBulk` only writes to the output buffer. -/
theorem sendBulk_foldl_preserves (cmd : String) (aa : List Arg) (keys : List String)
    (wn : WireConn × Nat) :
    ((keys.foldl (fun wn key => (wn.1.send cmd ([.str key] ++ aa), wn.2 + 1)) wn).1).replies =
        wn.1.replies ∧
      ((keys.foldl (fun wn key => (wn.1.send cmd ([.str key] ++ aa), wn.2 + 1)) wn).1).supportsTimeout =
        wn.1.supportsTimeout := by
  induction keys generalizing wn with
  | nil => exact ⟨rfl, rfl⟩
  | cons k ks ih =>
      simp only [List.foldl_cons]
      obtain ⟨h1, h2⟩ := ih (wn.1.send cmd ([.str k] ++ aa), wn.2 + 1)
      rw [h1, h2]
      exact send_preserves wn.1 cmd ([.str k] ++ aa)

/-- `sendBulk` only writes to the output buffer. -/
theorem sendBulk_preserves (cmd : String) (keys : List String) (conn : WireConn)
    (debulk : Bool) (aa : List Arg) :
    (sendBulk cmd keys conn debulk aa).1.replies = conn.replies ∧
      (sendBulk cmd keys conn debulk aa).1.supportsTimeout = conn.supportsTimeout := by
  unfold sendBulk
  split_ifs
  · exact sendBulk_foldl_preserves cmd aa keys (conn, 0)
  · exact send_preserves conn cmd _
  · exact ⟨rfl, rfl⟩

/-- `sendBulkForAllTypes` only writes to the output buffer. -/
theorem sendBulkForAllTypes_preserves (config : TypeSpecificBulkTransformerConfig)
    (agg : KeyTypeAggregation) (conn : WireConn) (aa : List Arg) :
    (sendBulkForAllTypes config agg conn aa).1.replies = conn.replies ∧
      (sendBulkForAllTypes config agg conn aa).1.supportsTimeout = conn.supportsTimeout := by
  unfold sendBulkForAllTypes
  obtain ⟨a0, b0⟩ := sendBulk_preserves config.Commands.none agg.none conn config.Debulk aa
  obtain ⟨a1, b1⟩ := sendBulk_preserves config.Commands.kv agg.kv _ config.Debulk aa
  obtain ⟨a2, b2⟩ := sendBulk_preserves config.Commands.list agg.list _ config.Debulk aa
  obtain ⟨a3, b3⟩ := sendBulk_preserves config.Commands.hash agg.hash _ config.Debulk aa
  obtain ⟨a4, b4⟩ := sendBulk_preserves config.Commands.set agg.set _ config.Debulk aa
  obtain ⟨a5, b5⟩ := sendBulk_preserves config.Commands.zset agg.zset _ config.Debulk aa
  constructor
  · rw [a5, a4, a3, a2, a1, a0]
  · rw [b5, b4, b3, b2, b1, b0]

/-- The identity transform's plan only writes to the output buffer. -/
theorem nonePlan_preserves (rw rw2 : Rewriter) (cmd : RedisCommand) (args : List Arg)
    (plan : SendLedisFunc) (h : NoneTransformer rw cmd args = .ok (rw2, plan)) :
    PlanPreserves plan := by
  unfold NoneTransformer at h
  rw [Except.ok.injEq, Prod.mk.injEq] at h
  obtain ⟨-, hp⟩ := h
  subst hp
  intro w w' slot hw
  rw [Except.ok.injEq, Prod.mk.injEq] at hw
  obtain ⟨hw1, -⟩ := hw
  subst hw1
  simp [WireConn.send]

/-- The type-specific bulk transform's plan only writes to the output
buffer. -/
theorem typeSpecificBulk_plan_preserves (config : TypeSpecificBulkTransformerConfig)
    (rw rw2 : Rewriter) (cmd : RedisCommand) (args : List Arg) (plan : SendLedisFunc)
    (h : TypeSpecificBulkTransformer config rw cmd args = .ok (rw2, plan)) :
    PlanPreserves plan := by
  unfold TypeSpecificBulkTransformer at h
  split at h
  · exact absurd h (by simp)
  · dsimp only at h
    split at h
    · exact absurd h (by simp)
    · split at h
      · exact absurd h (by simp)
      · rw [Except.ok.injEq, Prod.mk.injEq] at h
        obtain ⟨-, hp⟩ := h
        subst hp
        intro w w' slot hw
        unfold typeSpecificPlan at hw
        dsimp only at hw
        rw [Except.ok.injEq, Prod.mk.injEq] at hw
        obtain ⟨hw1, -⟩ := hw
        subst hw1
        exact sendBulkForAllTypes_preserves _ _ w _

/-- The SET transform's plan only writes to the output buffer. -/
theorem set_plan_preserves (rw rw2 : Rewriter) (cmd : RedisCommand) (args : List Arg)
    (plan : SendLedisFunc) (h : SetCommandTransformer rw cmd args = .ok (rw2, plan)) :
    PlanPreserves plan := by
  unfold SetCommandTransformer at h
  split at h
  · exact absurd h (by simp)
  · rename_i commandInfo heq
    dsimp only at h
    rcases Bool.eq_false_or_eq_true commandInfo.NXSet with hnx | hnx <;>
      rcases Bool.eq_false_or_eq_true commandInfo.XXSet with hxx | hxx <;>
        rcases Bool.eq_false_or_eq_true commandInfo.EXSet with hex | hex <;>
          rcases Bool.eq_false_or_eq_true commandInfo.PXSet with hpx | hpx <;>
            simp [hnx, hxx, hex, hpx] at h
    all_goals
      (obtain ⟨-, hp⟩ := h
       subst hp
       intro w w' slot hw
       dsimp only at hw
       split at hw <;>
         first
           | (rw [Except.ok.injEq, Prod.mk.injEq] at hw
              obtain ⟨hw1, -⟩ := hw
              subst hw1
              simp [WireConn.send])
           | exact absurd hw (by simp))

/-- The ZADD transform's plan only writes to the output buffer. -/
theorem zadd_plan_preserves (rw rw2 : Rewriter) (cmd : RedisCommand) (args : List Arg)
    (plan : SendLedisFunc) (h : ZaddCommandTransformer rw cmd args = .ok (rw2, plan)) :
    PlanPreserves plan := by
  unfold ZaddCommandTransformer at h
  split at h
  · exact absurd h (by simp)
  · rename_i commandInfo heq
    rcases Bool.eq_false_or_eq_true commandInfo.NXSet with hnx | hnx <;>
      rcases Bool.eq_false_or_eq_true commandInfo.XXSet with hxx | hxx <;>
        rcases Bool.eq_false_or_eq_true commandInfo.INCRSet with hin | hin <;>
          rcases Bool.eq_false_or_eq_true commandInfo.CHSet with hch | hch <;>
            simp [hnx, hxx, hin, hch] at h
    all_goals try split_ifs at h
    all_goals
      first
        | (try rw [Except.ok.injEq, Prod.mk.injEq] at h
           obtain ⟨-, hp⟩ := h
           subst hp
           intro w w' slot hw
           dsimp only at hw
           split at hw <;>
             first
               | (rw [Except.ok.injEq, Prod.mk.injEq] at hw
                  obtain ⟨hw1, -⟩ := hw
                  subst hw1
                  simp [WireConn.send])
               | exact absurd hw (by simp))
        | exact absurd h (by simp)

/-- The RESTORE transform's plan only writes to the output buffer. -/
theorem restore_plan_preserves (rw rw2 : Rewriter) (cmd : RedisCommand) (args : List Arg)
    (plan : SendLedisFunc) (h : RestoreCommandTransformer rw cmd args = .ok (rw2, plan)) :
    PlanPreserves plan := by
  unfold RestoreCommandTransformer at h
  split at h
  · exact absurd h (by simp)
  · dsimp only at h
    split at h
    · exact absurd h (by simp)
    · rw [Except.ok.injEq, Prod.mk.injEq] at h
      obtain ⟨-, hp⟩ := h
      subst hp
      intro w w' slot hw
      dsimp only at hw
      split at hw <;>
        first
          | exact absurd hw (by simp)
          | (split_ifs at hw <;>
              (rw [Except.ok.injEq, Prod.mk.injEq] at hw
               obtain ⟨hw1, -⟩ := hw
               subst hw1
               simp [WireConn.send]))

/-- The PING transform's plan only writes to the output buffer. -/
theorem ping_plan_preserves (rw rw2 : Rewriter) (cmd : RedisCommand) (args : List Arg)
    (plan : SendLedisFunc) (h : PingCommandTransformer rw cmd args = .ok (rw2, plan)) :
    PlanPreserves plan := by
  unfold PingCommandTransformer at h
  split_ifs at h
  · exact nonePlan_preserves _ _ _ _ _ h
  · split at h
    · exact absurd h (by simp)
    · split at h
      · exact absurd h (by simp)
      · rw [Except.ok.injEq, Prod.mk.injEq] at h
        obtain ⟨-, hp⟩ := h
        subst hp
        intro w w' slot hw
        rw [Except.ok.injEq, Prod.mk.injEq] at hw
        obtain ⟨hw1, -⟩ := hw
        subst hw1
        simp [WireConn.send]

/-- The SCRIPT transform's plan only writes to the output buffer. -/
theorem script_plan_preserves (rw rw2 : Rewriter) (cmd : RedisCommand) (args : List Arg)
    (plan : SendLedisFunc) (h : ScriptCommandTransformer rw cmd args = .ok (rw2, plan)) :
    PlanPreserves plan := by
  unfold ScriptCommandTransformer at h
  split at h
  · exact absurd h (by simp)
  · rename_i a0 rest0
    dsimp only at h
    rcases Bool.eq_false_or_eq_true (rewledisArgs.Parse a0).IsStringLike with hs | hs <;>
      rcases Bool.eq_false_or_eq_true
          ((rewledisArgs.Parse a0).EqualFoldEither "EXISTS" "EXISTS") with he | he <;>
        rcases Bool.eq_false_or_eq_true
            ((rewledisArgs.Parse a0).EqualFoldEither "FLUSH" "FLUSH") with hf | hf <;>
          rcases Bool.eq_false_or_eq_true
              ((rewledisArgs.Parse a0).EqualFoldEither "LOAD" "LOAD") with hl | hl <;>
            simp [hs, he, hf, hl] at h
    all_goals
      first
        | exact absurd h (by simp)
        | exact nonePlan_preserves _ _ _ _ _ h

/-- The UNSAFE transform's plan only writes to the output buffer (the SELF
plan leaves the wire connection untouched altogether). -/
theorem unsafe_plan_preserves (rw rw2 : Rewriter) (cmd : RedisCommand) (args : List Arg)
    (plan : SendLedisFunc) (h : UnsafeCommandTransformer rw cmd args = .ok (rw2, plan)) :
    PlanPreserves plan := by
  unfold UnsafeCommandTransformer at h
  split at h
  · exact absurd h (by simp)
  · rename_i a0 rest0
    dsimp only at h
    rcases Bool.eq_false_or_eq_true (rewledisArgs.Parse a0).IsStringLike with hs | hs
    · rcases Bool.eq_false_or_eq_true
          ((rewledisArgs.Parse a0).EqualFoldEither "LEDIS" "LEDIS") with hl | hl
      · simp [hs, hl] at h
        split_ifs at h with hlen
        split at h
        · exact absurd h (by simp)
        · rename_i a1 heq1
          rcases Bool.eq_false_or_eq_true (rewledisArgs.Parse a1).IsStringLike with hs2 | hs2
          · simp [hs2] at h
            split at h
            · exact absurd h (by simp)
            · rw [Except.ok.injEq, Prod.mk.injEq] at h
              obtain ⟨-, hp⟩ := h
              subst hp
              intro w w' slot hw
              rw [Except.ok.injEq, Prod.mk.injEq] at hw
              obtain ⟨hw1, -⟩ := hw
              subst hw1
              simp [WireConn.send]
          · simp [hs2] at h
      · rcases Bool.eq_false_or_eq_true
            ((rewledisArgs.Parse a0).EqualFoldEither "SELF" "SELF") with hsf | hsf
        · simp [hs, hl, hsf] at h
          split_ifs at h with hlen
          rw [Except.ok.injEq, Prod.mk.injEq] at h
          obtain ⟨-, hp⟩ := h
          subst hp
          intro w w' slot hw
          rw [Except.ok.injEq, Prod.mk.injEq] at hw
          obtain ⟨hw1, -⟩ := hw
          subst hw1
          exact ⟨rfl, rfl⟩
        · simp [hs, hl, hsf] at h
    · simp [hs] at h

/-- Every send-plan handed out by a transform only writes to the output
buffer. -/
theorem applyTransform_preserves (k : TransformKind) (rw : Rewriter) (cmd : RedisCommand)
    (args : List Arg) (rw2 : Rewriter) (plan : SendLedisFunc)
    (h : applyTransform k rw cmd args = .ok (rw2, plan)) : PlanPreserves plan := by
  cases k with
  | noneTransform => exact nonePlan_preserves rw rw2 cmd args plan h
  | typeSpecificBulk config => exact typeSpecificBulk_plan_preserves config rw rw2 cmd args plan h
  | set => exact set_plan_preserves rw rw2 cmd args plan h
  | zadd => exact zadd_plan_preserves rw rw2 cmd args plan h
  | restore => exact restore_plan_preserves rw rw2 cmd args plan h
  | ping => exact ping_plan_preserves rw rw2 cmd args plan h
  | script => exact script_plan_preserves rw rw2 cmd args plan h
  | unsafeCommand => exact unsafe_plan_preserves rw rw2 cmd args plan h

/-- Every send-plan produced by `Rewrite` only writes to the output
buffer. -/
theorem rewrite_preserves (rw : Rewriter) (name : String) (args : List Arg)
    (rw2 : Rewriter) (plan : SendLedisFunc)
    (h : Rewrite rw name args = .ok (rw2, plan)) : PlanPreserves plan := by
  unfold Rewrite at h
  split at h
  · exact absurd h (by simp)
  · exact applyTransform_preserves _ _ _ _ _ _ h

/-- `rewriteAndSend` only appends to the output buffer of the wire
connection. -/
theorem rewriteAndSend_preserves (l : LedisConn) (w : WireConn) (name : String)
    (args : List Arg) (slot : Slot) (rw : Rewriter) (w' : WireConn)
    (h : l.rewriteAndSend w name args = .ok (slot, rw, w')) :
    w'.replies = w.replies ∧ w'.supportsTimeout = w.supportsTimeout := by
  unfold LedisConn.rewriteAndSend at h
  split at h
  · exact absurd h (by simp)
  · rename_i rw0 f heq
    split at h
    · exact absurd h (by simp)
    · rename_i w1 slot1 heq2
      rw [Except.ok.injEq, Prod.mk.injEq, Prod.mk.injEq] at h
      obtain ⟨-, -, hw1⟩ := h
      subst hw1
      exact rewrite_preserves _ _ _ _ _ heq w w1 slot1 heq2

/-- A `doCore` run that returns without error ends with an empty slot
deque, and the raw replies owed to the previously queued slots have been
read off the wire (and possibly those of the just-issued command on top). -/
theorem doCore_ok (l : LedisConn) (w : WireConn) (name : String) (args : List Arg)
    (l' : LedisConn) (res : Reply)
    (h : l.doCore w name args = (l', .ok res)) :
    l'.slots = [] ∧ ∃ w' k, l'.conn = Option.some w' ∧
      slotsRepliesCount l.slots ≤ k ∧ w'.replies = w.replies.drop k := by
  unfold LedisConn.doCore at h
  split at h
  · exact absurd h (by simp)
  · rename_i slotOpt rw0 w1 heq0
    have hw1 : w1.replies = w.replies := by
      by_cases hn : name.length > 0
      · rw [if_pos hn] at heq0
        rcases hra : l.rewriteAndSend w name args with e | ⟨slot0, rw3, w4⟩
        · rw [hra] at heq0
          exact absurd heq0 (by simp [Except.map])
        · rw [hra] at heq0
          simp only [Except.map, Except.ok.injEq, Prod.mk.injEq] at heq0
          obtain ⟨-, -, h3⟩ := heq0
          subst h3
          exact (rewriteAndSend_preserves _ _ _ _ _ _ _ hra).1
      · rw [if_neg hn] at heq0
        rw [Except.ok.injEq, Prod.mk.injEq, Prod.mk.injEq] at heq0
        obtain ⟨-, -, h3⟩ := heq0
        rw [← h3]
    split at h
    · exact absurd h (by simp)
    · rename_i w2 heq1
      obtain ⟨hb, -, -⟩ := consumeSlots_ok _ _ _ heq1
      dsimp only at h
      split at h
      · rename_i slot
        split at h
        · exact absurd h (by simp)
        · rename_i replies w3 heq2
          split at h
          · exact absurd h (by simp)
          · rename_i reply heq3
            rw [Prod.mk.injEq] at h
            obtain ⟨hl, -⟩ := h
            subst hl
            obtain ⟨ha, -, -, -⟩ := receiveN_ok _ _ _ _ heq2
            refine ⟨rfl, w3, slotsRepliesCount l.slots + slot.RepliesCount, rfl, by omega, ?_⟩
            rw [ha, hb, hw1, List.drop_drop, Nat.add_comm]
      · rw [Prod.mk.injEq] at h
        obtain ⟨hl, -⟩ := h
        subst hl
        exact ⟨rfl, w2, slotsRepliesCount l.slots, rfl, Nat.le_refl _, by rw [hb, hw1]⟩

/-- C10: every `Do` or `DoWithTimeout` call on a rewriting connection that
returns without error leaves the pending-slot queue empty: the raw replies
owed to the slots queued by earlier `Send` calls have been read off the
wire and discarded and the deque cleared, whether or not the command name
was empty. -/
theorem do_drains_slot_queue (l : LedisConn) (name : String) (args : List Arg)
    (l' : LedisConn) (res : Reply)
    (h : l.Do name args = (l', .ok res) ∨ l.DoWithTimeout name args = (l', .ok res)) :
    l'.slots = [] ∧ ∃ w w' k, l.conn = Option.some w ∧ l'.conn = Option.some w' ∧
      slotsRepliesCount l.slots ≤ k ∧ w'.replies = w.replies.drop k := by
  rcases h with h | h
  · unfold LedisConn.Do at h
    split at h
    · exact absurd h (by simp)
    · rename_i w heqc
      obtain ⟨h1, w', k, h2, h3, h4⟩ := doCore_ok _ _ _ _ _ _ h
      exact ⟨h1, w, w', k, heqc, h2, h3, h4⟩
  · unfold LedisConn.DoWithTimeout at h
    split at h
    · exact absurd h (by simp)
    · rename_i w heqc
      split_ifs at h with ht
      · obtain ⟨h1, w', k, h2, h3, h4⟩ := doCore_ok _ _ _ _ _ _ h
        exact ⟨h1, w, w', k, heqc, h2, h3, h4⟩
      · exact absurd h (by simp)

/-- Witness for C10: `Do` on the demo connection with one pending slot
succeeds and leaves the queue drained, with both raw replies consumed. -/
theorem do_drains_slot_queue_witness :
    (demoDoConn.Do "GET" [Arg.str "k"]).1.slots = [] ∧
      ∃ w w' k, demoDoConn.conn = Option.some w ∧
        (demoDoConn.Do "GET" [Arg.str "k"]).1.conn = Option.some w' ∧
        slotsRepliesCount demoDoConn.slots ≤ k ∧ w'.replies = w.replies.drop k :=
  do_drains_slot_queue demoDoConn "GET" [Arg.str "k"]
    (demoDoConn.Do "GET" [Arg.str "k"]).1 (Reply.str "x") (Or.inl rfl)

/-- A successful run of the key-assignment loop bounds the read cursor: the
last iteration reads `names[i + n]`, which must be in range. -/
theorem assignSegmentKeysAux_bound (names : List String) :
    ∀ (n i : Nat) (seg : List TypeInfo),
      assignSegmentKeysAux names i (n + 1) = .ok seg → i + n < names.length := by
  intro n
  induction n with
  | zero =>
      intro i seg h
      unfold assignSegmentKeysAux at h
      rcases hk : names[i]? with - | k
      · rw [hk] at h
        exact absurd h (by simp)
      · by_contra hge
        rw [List.getElem?_eq_none (Nat.le_of_not_lt (by simpa using hge))] at hk
        cases hk
  | succ n ihn =>
      intro i seg h
      unfold assignSegmentKeysAux at h
      rcases hk : names[i]? with - | k
      · rw [hk] at h
        exact absurd h (by simp)
      · rw [hk] at h
        rcases hrec : assignSegmentKeysAux names (i + 1) (n + 1) with e | rest
        · rw [hrec] at h
          exact absurd h (by simp)
        · have := ihn (i + 1) rest hrec
          omega

/-- In-range evaluation of the key-assignment loop: it emits one keyed,
untyped slot per remaining read position. -/
theorem assignSegmentKeysAux_eval (names : List String) :
    ∀ (n i : Nat), i + n ≤ names.length →
      assignSegmentKeysAux names i n =
        .ok (((names.drop i).take n).map (fun k => (⟨k, LedisType.none⟩ : TypeInfo))) := by
  intro n
  induction n with
  | zero =>
      intro i hle
      simp [assignSegmentKeysAux]
  | succ n ihn =>
      intro i hle
      have hlt : i < names.length := by omega
      unfold assignSegmentKeysAux
      rw [List.getElem?_eq_getElem hlt]
      rw [ihn (i + 1) (by omega)]
      rw [← List.getElem_cons_drop names i hlt]
      rw [List.take_succ_cons, List.map_cons]

/-- A successful key assignment returns exactly the side list's keys (in
order), each paired with type `None`; with a non-empty side list this forces
`beginIndex = 0`. -/
theorem assignSegmentKeys_ok (b : Nat) (names : List String) (seg : List TypeInfo)
    (h : assignSegmentKeys b names = .ok seg) :
    seg = names.map (fun k => (⟨k, LedisType.none⟩ : TypeInfo)) := by
  unfold assignSegmentKeys at h
  cases names with
  | nil =>
      simp only [List.length_nil] at h
      unfold assignSegmentKeysAux at h
      rw [Except.ok.injEq] at h
      simp [← h]
  | cons x xs =>
      have hb : b = 0 := by
        have := assignSegmentKeysAux_bound (x :: xs) xs.length b seg (by simpa using h)
        simp at this
        omega
      subst hb
      rw [assignSegmentKeysAux_eval (x :: xs) (x :: xs).length 0 (by simp)] at h
      rw [Except.ok.injEq] at h
      rw [← h]
      simp

/-- `checkType` marks hits in place: the key of every slot is unchanged. -/
theorem checkType_keys (probe : ProbeOracle) (t : LedisType)
    (pairs res : List (TypeInfo × CacheEntrySetter))
    (h : checkType probe t pairs = .ok res) :
    res.map (fun pr => pr.1.key) = pairs.map (fun pr => pr.1.key) := by
  unfold checkType at h
  split at h
  · exact absurd h (by simp)
  · split at h
    · exact absurd h (by simp)
    · rw [Except.ok.injEq] at h
      subst h
      rw [List.map_map]
      refine List.map_congr_left ?_
      intro pr _
      simp only [Function.comp_apply]
      split_ifs <;> rfl

/-- The in-place partition loop permutes the working slice: front and back
together hold exactly the input elements. -/
theorem sortApartAux_perm (p : TypeInfo × CacheEntrySetter → Bool) :
    ∀ (fuel : Nat) (mid back : List (TypeInfo × CacheEntrySetter)),
      fuel = mid.length →
      List.Perm ((sortApartAux p fuel mid back).1 ++ (sortApartAux p fuel mid back).2)
        (mid ++ back) := by
  intro fuel
  induction fuel with
  | zero =>
      intro mid back hf
      cases mid with
      | nil => simp [sortApartAux]
      | cons x rest => simp at hf
  | succ fuel ih =>
      intro mid back hf
      cases mid with
      | nil => simp [sortApartAux]
      | cons x rest =>
          have hf' : fuel = rest.length := by simpa using hf
          rcases Bool.eq_false_or_eq_true (p x) with hp | hp
          · have hstep : sortApartAux p (fuel + 1) (x :: rest) back =
                ((x :: (sortApartAux p fuel rest back).1), (sortApartAux p fuel rest back).2) := by
              conv_lhs => unfold sortApartAux
              simp [hp]
            rw [hstep]
            simp only [List.cons_append]
            exact List.Perm.cons x (ih rest back hf')
          · cases rest with
            | nil =>
                have hstep : sortApartAux p (fuel + 1) [x] back = ([], x :: back) := by
                  conv_lhs => unfold sortApartAux
                  simp [hp]
                rw [hstep]
                simp only [List.nil_append, List.singleton_append]
                exact List.Perm.refl _
            | cons y ys =>
                have hlen : fuel =
                    (((y :: ys).getLast (List.cons_ne_nil y ys)) :: (y :: ys).dropLast).length := by
                  simpa [List.length_dropLast] using hf'
                have hstep : sortApartAux p (fuel + 1) (x :: y :: ys) back =
                    sortApartAux p fuel
                      (((y :: ys).getLast (List.cons_ne_nil y ys)) :: (y :: ys).dropLast)
                      (x :: back) := by
                  conv_lhs => unfold sortApartAux
                  simp [hp]
                rw [hstep]
                refine (ih _ _ hlen).trans ?_
                have hda := List.dropLast_append_getLast (List.cons_ne_nil y ys)
                have h1 := (List.perm_append_singleton ((y :: ys).getLast (List.cons_ne_nil y ys))
                    ((y :: ys).dropLast)).symm
                rw [hda] at h1
                have h2 := h1.append_right (x :: back)
                refine h2.trans ?_
                exact List.perm_middle

/-- Projecting the keys out of the working pairs recovers the keyed slots. -/
theorem zip_map_fst_key :
    ∀ (l₁ : List TypeInfo) (l₂ : List CacheEntrySetter), l₁.length ≤ l₂.length →
      (l₁.zip l₂).map (fun pr => pr.1.key) = l₁.map (fun ti => ti.key) := by
  intro l₁
  induction l₁ with
  | nil => intro l₂ h; simp
  | cons x xs ih =>
      intro l₂ h
      cases l₂ with
      | nil => simp at h
      | cons y ys =>
          simp only [List.zip_cons_cons, List.map_cons]
          rw [ih ys (by simpa using h)]

/-- The classification loop only appends to the output slice: the
caller-supplied prefix survives unchanged. -/
theorem classifyKeys_out_prefix (keys : List String) :
    ∀ (c : CacheState) (out : List TypeInfo) (eds : List CacheEntryData)
      (setters : List CacheEntrySetter) (c1 : CacheState) (out1 : List TypeInfo)
      (eds1 : List CacheEntryData) (setters1 : List CacheEntrySetter),
      classifyKeys c keys out eds setters = .ok (c1, out1, eds1, setters1) →
      ∃ hits, out1 = out ++ hits := by
  induction keys with
  | nil =>
      intro c out eds setters c1 out1 eds1 setters1 h
      unfold classifyKeys at h
      rw [Except.ok.injEq, Prod.mk.injEq, Prod.mk.injEq, Prod.mk.injEq] at h
      obtain ⟨-, hout, -, -⟩ := h
      exact ⟨[], by rw [← hout]; simp⟩
  | cons key ks ih =>
      intro c out eds setters c1 out1 eds1 setters1 h
      unfold classifyKeys at h
      dsimp only at h
      split_ifs at h <;>
        first
          | exact absurd h (by simp)
          | (obtain ⟨hits, hh⟩ := ih _ _ _ _ _ _ _ _ h
             exact ⟨_, by rw [hh]; try rw [List.append_assoc]⟩)

/-- `waitResolve` fills in types only: the keys of the pre-keyed segment
come back unchanged, in order. -/
theorem waitResolve_keys (wait : String → WaitOutcome) :
    ∀ (eds : List CacheEntryData) (seg ws : List TypeInfo),
      waitResolve wait eds seg = .ok ws →
      ws.map (fun ti => ti.key) = seg.map (fun ti => ti.key) := by
  intro eds
  induction eds with
  | nil =>
      intro seg ws h
      unfold waitResolve at h
      rw [Except.ok.injEq] at h
      rw [← h]
  | cons ed eds ih =>
      intro seg ws h
      cases seg with
      | nil =>
          unfold waitResolve at h
          exact absurd h (by simp)
      | cons ti tis =>
          unfold waitResolve at h
          split at h
          · split at h
            · exact absurd h (by simp)
            · rename_i rest heqR
              rw [Except.ok.injEq] at h
              rw [← h]
              simp only [List.map_cons]
              rw [ih _ _ heqR]
          · split at h
            · exact absurd h (by simp)
            · rename_i rest heqR
              rw [Except.ok.injEq] at h
              rw [← h]
              simp only [List.map_cons]
              rw [ih _ _ heqR]
          · exact absurd h (by simp)
          · exact absurd h (by simp)

/-- The probing rounds permute the working slice: the emitted `typesInfo`
segment carries exactly the keys of the input pairs, in grouped order. -/
theorem activeResolveLoop_keys_perm (probe : ProbeOracle) :
    ∀ (ts : List LedisType) (c : CacheState) (pairs : List (TypeInfo × CacheEntrySetter))
      (c' : CacheState) (tis : List TypeInfo),
      activeResolveLoop probe c ts pairs = .ok (c', tis) →
      List.Perm (tis.map (fun ti => ti.key)) (pairs.map (fun pr => pr.1.key)) := by
  intro ts
  induction ts with
  | nil =>
      intro c pairs c' tis h
      unfold activeResolveLoop at h
      dsimp only at h
      rw [Except.ok.injEq, Prod.mk.injEq] at h
      obtain ⟨-, ht⟩ := h
      rw [← ht, List.map_map]
      exact List.Perm.refl _
  | cons t rest ih =>
      intro c pairs c' tis h
      unfold activeResolveLoop at h
      split at h
      · exact absurd h (by simp)
      · rename_i pairs' heqC
        dsimp only at h
        have hck := checkType_keys probe t pairs pairs' heqC
        have hperm1 : List.Perm
            ((sortApartCoSortEntrySetters pairs').1 ++ (sortApartCoSortEntrySetters pairs').2)
            pairs' := by
          have hp := sortApartAux_perm (fun pr => pr.1.typ != LedisType.none)
            pairs'.length pairs' [] rfl
          simpa [sortApartCoSortEntrySetters] using hp
        split_ifs at h with hEmp
        · rw [Except.ok.injEq, Prod.mk.injEq] at h
          obtain ⟨-, ht⟩ := h
          rw [← ht, List.map_map]
          have hb2 : (sortApartCoSortEntrySetters pairs').2 = [] :=
            List.isEmpty_iff.mp hEmp
          have hfront : List.Perm ((sortApartCoSortEntrySetters pairs').1) pairs' := by
            simpa [hb2] using hperm1
          refine (hfront.map (fun pr => pr.1.key)).trans ?_
          rw [hck]
        · split at h
          · exact absurd h (by simp)
          · rename_i c'' tail heqR
            rw [Except.ok.injEq, Prod.mk.injEq] at h
            obtain ⟨-, ht⟩ := h
            rw [← ht, List.map_append, List.map_map]
            have htail := ih _ _ _ _ heqR
            have hA : List.Perm
                ((sortApartCoSortEntrySetters pairs').1.map (fun pr => pr.1.key) ++
                  tail.map (fun ti => ti.key))
                ((sortApartCoSortEntrySetters pairs').1.map (fun pr => pr.1.key) ++
                  (sortApartCoSortEntrySetters pairs').2.map (fun pr => pr.1.key)) :=
              List.Perm.append_left _ htail
            have hB : ((sortApartCoSortEntrySetters pairs').1.map (fun pr => pr.1.key) ++
                  (sortApartCoSortEntrySetters pairs').2.map (fun pr => pr.1.key)) =
                ((sortApartCoSortEntrySetters pairs').1 ++
                  (sortApartCoSortEntrySetters pairs').2).map (fun pr => pr.1.key) :=
              (List.map_append _ _ _).symm
            have hC := hperm1.map (fun pr => pr.1.key)
            refine hA.trans ?_
            rw [hB]
            refine hC.trans ?_
            rw [hck]

/-- C1 amended: for every `ResolveAppend` call that returns without error,
the output is the input prefix, then the cache-hit keys in input order,
then the segment of keys the caller probed itself, then the waited keys in
waited order — but the probed segment is only a permutation of the owned
keys (the rounds emit it grouped by resolved type), not the owned order
itself; every output pair still carries the key it was resolved for. -/
theorem resolveAppend_grouped_partition (c : CacheState) (probe : ProbeOracle)
    (wait : String → WaitOutcome) (typesInfo : List TypeInfo) (keys : List String)
    (c2 : CacheState) (out : List TypeInfo)
    (h : ResolveAppend c probe wait typesInfo keys = .ok (c2, out)) :
    ∃ c1 hits eds setters ownedSeg waitedSeg,
      classifyKeys c keys typesInfo [] [] = .ok (c1, typesInfo ++ hits, eds, setters) ∧
      out = typesInfo ++ hits ++ ownedSeg ++ waitedSeg ∧
      List.Perm (ownedSeg.map (fun ti => ti.key)) (setters.map (fun s => s.Key)) ∧
      waitedSeg.map (fun ti => ti.key) = eds.map (fun ed => ed.Key) := by
  unfold ResolveAppend at h
  split at h
  · exact absurd h (by simp)
  · rename_i c1 out1 entriesData entrySetters heqCl
    split at h
    · exact absurd h (by simp)
    · rename_i seg1 heqA1
      split at h
      · exact absurd h (by simp)
      · rename_i c2' ownedSeg heqAR
        dsimp only at h
        split at h
        · exact absurd h (by simp)
        · rename_i seg2 heqA2
          split at h
          · exact absurd h (by simp)
          · rename_i waitedSeg heqW
            rw [Except.ok.injEq, Prod.mk.injEq] at h
            obtain ⟨-, hout⟩ := h
            obtain ⟨hits, hhits⟩ :=
              classifyKeys_out_prefix keys c typesInfo [] [] c1 out1 entriesData
                entrySetters heqCl
            have hseg1 : seg1 =
                (entrySetters.map (fun s => s.Key)).map
                  (fun k => (⟨k, LedisType.none⟩ : TypeInfo)) :=
              assignSegmentKeys_ok _ _ _ heqA1
            have hseg2 : seg2 =
                (entriesData.map (fun ed => ed.Key)).map
                  (fun k => (⟨k, LedisType.none⟩ : TypeInfo)) :=
              assignSegmentKeys_ok _ _ _ heqA2
            refine ⟨c1, hits, entriesData, entrySetters, ownedSeg, waitedSeg, ?_, ?_, ?_, ?_⟩
            · rw [← hhits]
              exact heqCl
            · rw [← hout, hhits]
            · have hperm := activeResolveLoop_keys_perm probe ledisTypesOrder c1
                (seg1.zip entrySetters) c2' ownedSeg heqAR
              have hzip : (seg1.zip entrySetters).map (fun pr => pr.1.key) =
                  seg1.map (fun ti => ti.key) := by
                refine zip_map_fst_key seg1 entrySetters ?_
                rw [hseg1]
                simp
              have hkeys : seg1.map (fun ti => ti.key) =
                  entrySetters.map (fun s => s.Key) := by
                rw [hseg1, List.map_map]
                simp [Function.comp_def]
              rw [hzip, hkeys] at hperm
              exact hperm
            · have hw := waitResolve_keys wait entriesData seg2 waitedSeg heqW
              rw [hw, hseg2, List.map_map]
              simp [Function.comp_def]

/-- C1 counterexample: with an empty cache and a backend where `"b"` is a
KV string and `"a"` is a list, resolving the owned keys `["a", "b"]`
returns the pairs grouped by probing round — `"b"` (KV round) before
`"a"` (list round) — not in the owned order `"a"` before `"b"` that the
specification promises. -/
theorem resolveAppend_order_counterexample :
    ∃ c2, ResolveAppend {} probeAB (fun _ => .cancelled) [] ["a", "b"] =
        .ok (c2, [⟨"b", LedisType.kv⟩, ⟨"a", LedisType.list⟩]) ∧
      ([⟨"b", LedisType.kv⟩, ⟨"a", LedisType.list⟩] : List TypeInfo) ≠
        [⟨"a", LedisType.list⟩, ⟨"b", LedisType.kv⟩] :=
  ⟨_, rfl, by decide⟩

/-- Witness for the amended C1 at the counterexample input. -/
theorem resolveAppend_grouped_partition_witness :
    ∃ c1 hits eds setters ownedSeg waitedSeg,
      classifyKeys ({} : CacheState) ["a", "b"] [] [] [] =
        .ok (c1, [] ++ hits, eds, setters) ∧
      ([⟨"b", LedisType.kv⟩, ⟨"a", LedisType.list⟩] : List TypeInfo) =
        [] ++ hits ++ ownedSeg ++ waitedSeg ∧
      List.Perm (ownedSeg.map (fun ti => ti.key)) (setters.map (fun s => s.Key)) ∧
      waitedSeg.map (fun ti => ti.key) = eds.map (fun ed => ed.Key) :=
  resolveAppend_grouped_partition {} probeAB (fun _ => .cancelled) [] ["a", "b"] _
    [⟨"b", LedisType.kv⟩, ⟨"a", LedisType.list⟩] rfl
